import Mathlib

/-!
Verification of the fragmented-MP4 rewriter, virtual byte sink and encoder
front-end of the rust-sidecar streaming core.

Bytes are modelled as `List Nat` with every element `< 256` (Rust `u8`).
Machine-integer arithmetic is modelled on `Nat` with explicit reductions
`% 2^32` / `% 2^64` exactly where the Rust code performs `u32`/`u64`
arithmetic that can wrap.

Loops of the source are embedded as structural recursion over an explicit
fuel argument; every call site passes fuel that dominates the iteration
count of the source loop (each source-loop iteration advances its cursor
by at least one byte, and fuel is instantiated with the byte count plus a
constant), so the embedded function computes exactly what the source loop
computes.
-/

namespace Sidecar

set_option maxRecDepth 4000

abbrev Bytes := List Nat

/-- Big-endian `u32` read of four bytes at offset `i`
(`u32::from_be_bytes([d[i], d[i+1], d[i+2], d[i+3]])`).  All uses in the
source are behind explicit bounds checks, mirrored in the embedding. -/
def be32at (d : Bytes) (i : Nat) : Nat :=
  d.getD i 0 * 16777216 + d.getD (i+1) 0 * 65536 + d.getD (i+2) 0 * 256 + d.getD (i+3) 0

/-- `u32::from_be_bytes([0, d[i], d[i+1], d[i+2]])` — the flag-word read used
for `tfhd`/`trun` flags (a 24-bit value). -/
def be24at (d : Bytes) (i : Nat) : Nat :=
  d.getD i 0 * 65536 + d.getD (i+1) 0 * 256 + d.getD (i+2) 0

/-- Big-endian `u16` read (`u16::from_be_bytes([d[i], d[i+1]])`). -/
def be16at (d : Bytes) (i : Nat) : Nat :=
  d.getD i 0 * 256 + d.getD (i+1) 0

/-- `u32::to_be_bytes` of a value already reduced `% 2^32`. -/
def be32bytes (v : Nat) : Bytes :=
  [(v >>> 24) % 256, (v >>> 16) % 256, (v >>> 8) % 256, v % 256]

/-- Overwrite the four bytes at `i..i+4` with the big-endian encoding of `v`
(`data[i..i+4].copy_from_slice(&v.to_be_bytes())`). -/
def setBe32 (d : Bytes) (i : Nat) (v : Nat) : Bytes :=
  ((((d.set i ((v >>> 24) % 256)).set (i+1) ((v >>> 16) % 256)).set
      (i+2) ((v >>> 8) % 256)).set (i+3) (v % 256))

/-- `Vec::drain(a..b)` for `a ≤ b ≤ len`: remove bytes `[a, b)`. -/
def drainRange (d : Bytes) (a b : Nat) : Bytes :=
  d.take a ++ d.drop b

/-- `Vec::splice(i..i, xs)`: insert `xs` at position `i`. -/
def insertAt (d : Bytes) (i : Nat) (xs : Bytes) : Bytes :=
  d.take i ++ xs ++ d.drop i

/-- Four type bytes of the box starting at offset `i` (`&data[i+4..i+8]`). -/
def typeAt (d : Bytes) (i : Nat) : Bytes :=
  (d.drop (i+4)).take 4

/-- Wrapping `u32` subtraction (`a - b` on `u32` in release mode; the source
also writes it as `(a as i32 - b) as u32`, identical `% 2^32`). -/
def u32sub (a b : Nat) : Nat := (a + 4294967296 - b % 4294967296) % 4294967296

/-- Wrapping `u32` addition. -/
def u32add (a b : Nat) : Nat := (a + b) % 4294967296

-- MP4 box type tags as raw ASCII bytes.
def ftypT : Bytes := [102, 116, 121, 112]
def moovT : Bytes := [109, 111, 111, 118]
def freeT : Bytes := [102, 114, 101, 101]
def metaT : Bytes := [109, 101, 116, 97]
def skipT : Bytes := [115, 107, 105, 112]
def moofT : Bytes := [109, 111, 111, 102]
def mdatT : Bytes := [109, 100, 97, 116]
def mfhdT : Bytes := [109, 102, 104, 100]
def trafT : Bytes := [116, 114, 97, 102]
def tfhdT : Bytes := [116, 102, 104, 100]
def tfdtT : Bytes := [116, 102, 100, 116]
def trunT : Bytes := [116, 114, 117, 110]
def trakT : Bytes := [116, 114, 97, 107]
def tkhdT : Bytes := [116, 107, 104, 100]
def iodsT : Bytes := [105, 111, 100, 115]
def avc1T : Bytes := [97, 118, 99, 49]

/-- The child offsets located by `patch_moof`'s scanning pass
(`tfhd_offset`, `tfdt_offset`, `trun_offset`, `traf_offset`). -/
structure MoofOffsets where
  tfhd : Option Nat
  tfdt : Option Nat
  trun : Option Nat
  traf : Option Nat
deriving Repr, DecidableEq

/-- Inner `while` of `Mp4Parser::patch_moof` over the children of a `traf`
box (`mp4.rs:130-142`).  Each iteration advances `j` by at least 8, so fuel
`trafEnd` dominates the iteration count. -/
def scanTraf (d : Bytes) (trafEnd : Nat) : Nat → Nat → MoofOffsets → MoofOffsets
  | 0, _, acc => acc
  | fuel+1, j, acc =>
    if j + 8 ≤ trafEnd then
      let cs := be32at d j
      if cs < 8 ∨ j + cs > trafEnd then acc
      else
        let t := typeAt d j
        let acc' :=
          if t = tfhdT then { acc with tfhd := some j }
          else if t = tfdtT then { acc with tfdt := some j }
          else if t = trunT then { acc with trun := some j }
          else acc
        scanTraf d trafEnd fuel (j + cs) acc'
    else acc

/-- Outer `while` of `Mp4Parser::patch_moof` over the children of the `moof`
box (`mp4.rs:113-147`).  `mfhd` and unknown children are skipped; a `traf`
child records its offset and is scanned for `tfhd`/`tfdt`/`trun`. -/
def scanMoof (d : Bytes) (moofSize : Nat) : Nat → Nat → MoofOffsets → MoofOffsets
  | 0, _, acc => acc
  | fuel+1, i, acc =>
    if i + 8 ≤ moofSize then
      let bs := be32at d i
      if bs < 8 ∨ i + bs > moofSize then acc
      else
        let acc' :=
          if typeAt d i = trafT then
            scanTraf d (i + bs) (i + bs) (i + 8) { acc with traf := some i }
          else acc
        scanMoof d moofSize fuel (i + bs) acc'
    else acc

/-- `tfhd` normalization of `patch_moof` (`mp4.rs:149-182`): clear
base-data-offset-present, set default-base-is-moof, drop the 8-byte
`base_data_offset` field and decrement the `tfhd` size.  Returns the new
bytes and the `size_reduction` (0 or 8). -/
def tfhdStep (data0 : Bytes) (tfhdOff : Option Nat) : Bytes × Nat :=
  match tfhdOff with
  | none => (data0, 0)
  | some off =>
    if off + 16 ≤ data0.length then
      let flags := be24at data0 (off+9)
      if flags &&& 1 ≠ 0 then
        let newFlags := (flags &&& 4294967294) ||| 131072
        let d1 := ((data0.set (off+9) ((newFlags >>> 16) &&& 255)).set
            (off+10) ((newFlags >>> 8) &&& 255)).set (off+11) (newFlags &&& 255)
        if off + 24 ≤ d1.length then
          let d2 := drainRange d1 (off+16) (off+24)
          (setBe32 d2 off (u32sub (be32at d2 off) 8), 8)
        else (d1, 0)
      else (data0, 0)
    else (data0, 0)

/-- Size-reduction propagation of `patch_moof` (`mp4.rs:184-201`): when the
`base_data_offset` was removed, take 8 off the `traf` and `moof` sizes and
shift the recorded `trun` offset down by 8. -/
def reductionStep (d2 : Bytes) (sizeReduction : Nat) (trafOff trunOff : Option Nat) :
    Bytes × Option Nat :=
  if sizeReduction > 0 then
    let dA := match trafOff with
      | some off => setBe32 d2 off (u32sub (be32at d2 off) 8)
      | none => d2
    let dB := setBe32 dA 0 (u32sub (be32at dA 0) 8)
    (dB, trunOff.map (fun o => o - 8))
  else (d2, trunOff)

/-- `tfdt` injection of `patch_moof` (`mp4.rs:203-241`): when no `tfdt` was
found, insert a 16-byte version-0 `tfdt` carrying
`cumulative_decode_time as u32` right after the `tfhd`, and add 16 to the
`traf` and `moof` sizes and to the recorded `trun` offset. -/
def tfdtStep (cdt : Nat) (d3 : Bytes) (needsTfdt : Bool)
    (tfhdOff trafOff trunOff : Option Nat) : Bytes × Option Nat :=
  if needsTfdt then
    match tfhdOff, trafOff with
    | some tOff, some trafO =>
      let curTfhd := be32at d3 tOff
      let insertPoint := tOff + curTfhd
      let box := [0, 0, 0, 16] ++ tfdtT ++ [0, 0, 0, 0] ++ be32bytes (cdt % 4294967296)
      let dA := insertAt d3 insertPoint box
      let dB := setBe32 dA trafO (u32add (be32at dA trafO) 16)
      let dC := setBe32 dB 0 (u32add (be32at dB 0) 16)
      (dC, trunOff.map (fun o => o + 16))
    | _, _ => (d3, trunOff)
  else (d3, trunOff)

/-- `trun` fixup of `patch_moof` (`mp4.rs:243-260`): when data-offset-present
is set, overwrite `data_offset` with the current `moof` size plus 8. -/
def trunStep (d4 : Bytes) (trunOff : Option Nat) : Bytes :=
  match trunOff with
  | some off =>
    if off + 16 ≤ d4.length then
      let flags := be24at d4 (off+9)
      if flags &&& 1 ≠ 0 then
        if off + 20 ≤ d4.length then
          setBe32 d4 (off+16) (u32add (be32at d4 0) 8)
        else d4
      else d4
    else d4
  | none => d4

/-- Decode-time advance of `patch_moof` (`mp4.rs:261-268`):
`cumulative_decode_time += sample_count * 1000` on `u64`. -/
def advanceStep (cdt : Nat) (d5 : Bytes) (trunOff : Option Nat) : Nat :=
  match trunOff with
  | some off =>
    if off + 16 ≤ d5.length then
      (cdt + be32at d5 (off+12) * 1000) % 18446744073709551616
    else cdt
  | none => cdt

/-- `Mp4Parser::patch_moof` (`mp4.rs:100-271`).  Takes the current
`cumulative_decode_time` and the `moof` bytes, returns the patched bytes and
the updated `cumulative_decode_time`. -/
def patch_moof (cdt : Nat) (data0 : Bytes) : Bytes × Nat :=
  if data0.length < 8 then (data0, cdt) else
  let moofSize := be32at data0 0
  if moofSize > data0.length then (data0, cdt) else
  let offs := scanMoof data0 moofSize data0.length 8 ⟨none, none, none, none⟩
  let step1 := tfhdStep data0 offs.tfhd
  let step2 := reductionStep step1.1 step1.2 offs.traf offs.trun
  let step3 := tfdtStep cdt step2.1 offs.tfdt.isNone offs.tfhd offs.traf step2.2
  let d5 := trunStep step3.1 step3.2
  (d5, advanceStep cdt d5 step3.2)

/-- Child-collection loop of `Mp4Parser::patch_moov` (`mp4.rs:289-312`):
walks the direct children of the `moov`, drops any `iods` child, and
concatenates the kept children.  The cursor `read_u32` failure
(fewer than 4 bytes left) and the size checks all `break`.  Fuel: each
iteration advances `pos` by at least 8. -/
def collectChildren (d : Bytes) : Nat → Nat → Bytes → Bool → Bytes × Bool
  | 0, _, payload, found => (payload, found)
  | fuel+1, pos, payload, found =>
    if pos ≥ d.length then (payload, found)
    else if pos + 4 > d.length then (payload, found)
    else
      let cs := be32at d pos
      if cs < 8 ∨ pos + cs > d.length then (payload, found)
      else
        let t := (d.drop (pos+4)).take 4
        if t = iodsT then collectChildren d fuel (pos + cs) payload true
        else collectChildren d fuel (pos + cs) (payload ++ ((d.drop pos).take cs)) found

/-- `Mp4Parser::find_avc1_dimensions` (`mp4.rs:36-62`): linear search for the
ASCII bytes `avc1`; on a hit read width/height as big-endian `u16` at
offsets +28/+30 from the pattern and accept them when both are non-zero,
otherwise keep scanning.  The source loop range is
`0..data.len().saturating_sub(40)`. -/
def find_avc1_dimensions (d : Bytes) : Nat → Nat → Option (Nat × Nat)
  | 0, _ => none
  | fuel+1, i =>
    if i < d.length - 40 then
      if (d.drop i).take 4 = avc1T then
        let wOff := i + 28
        let hOff := i + 30
        if hOff + 2 ≤ d.length then
          let w := be16at d wOff
          let h := be16at d hOff
          if 0 < w ∧ 0 < h then some (w, h)
          else find_avc1_dimensions d fuel (i+1)
        else find_avc1_dimensions d fuel (i+1)
      else find_avc1_dimensions d fuel (i+1)
    else none

/-- `Mp4Parser::patch_tkhd` (`mp4.rs:65-95`): linear search for the ASCII
bytes `tkhd`; read the version byte right after the pattern and overwrite
the 16.16 fixed-point width/height fields at the version-dependent offsets.
Returns the (possibly modified) bytes and the success flag.  The source
loop range is `0..data.len().saturating_sub(92)`. -/
def patch_tkhd (d : Bytes) (w h : Nat) : Nat → Nat → Bytes × Bool
  | 0, _ => (d, false)
  | fuel+1, i =>
    if i < d.length - 92 then
      if (d.drop i).take 4 = tkhdT then
        let version := d.getD (i+4) 0
        let wOff := if version = 0 then i + 80 else i + 92
        let hOff := if version = 0 then i + 84 else i + 96
        if hOff + 4 ≤ d.length then
          (setBe32 (setBe32 d wOff (w <<< 16)) hOff (h <<< 16), true)
        else patch_tkhd d w h fuel (i+1)
      else patch_tkhd d w h fuel (i+1)
    else (d, false)

/-- Dimension-patching tail of `patch_moov` (`mp4.rs:325-335`): look for
`avc1` dimensions and, when found, patch the `tkhd` (both failures only
log). -/
def moovFinish (result : Bytes) : Bytes :=
  match find_avc1_dimensions result result.length 0 with
  | some (w, h) => (patch_tkhd result w h result.length 0).1
  | none => result

/-- `Mp4Parser::patch_moov` (`mp4.rs:273-336`): drop `iods` children
(rewriting the `moov` size), then patch the `tkhd` dimensions from the
first acceptable `avc1` occurrence. -/
def patch_moov (data : Bytes) : Bytes :=
  if data.length < 8 then data else
  let totalSize := be32at data 0
  if totalSize ≠ data.length then data else
  let pf := collectChildren data (data.length + 1) 8 [] false
  let result :=
    if pf.2 then be32bytes ((8 + pf.1.length) % 4294967296) ++ moovT ++ pf.1
    else data
  moovFinish result

inductive SegKind where
  | init
  | media
deriving Repr, DecidableEq

structure Mp4Segment where
  kind : SegKind
  data : Bytes
deriving Repr, DecidableEq

/-- `Mp4Parser` state (`mp4.rs:16-22`). -/
structure Mp4Parser where
  buffer : Bytes
  initComplete : Bool
  initSegment : Bytes
  pendingMoof : Bytes
  cdt : Nat
deriving Repr, DecidableEq

def Mp4Parser.new : Mp4Parser :=
  { buffer := [], initComplete := false, initSegment := [], pendingMoof := [], cdt := 0 }

/-- One dispatch of `Mp4Parser::parse`'s `match` on the atom type
(`mp4.rs:361-421`), applied to the fully-received atom `atomData`. -/
def parseAtom (p : Mp4Parser) (atomData : Bytes) (segs : List Mp4Segment) :
    Mp4Parser × List Mp4Segment :=
  let t := (atomData.drop 4).take 4
  if t = ftypT then
    ({ p with initSegment := p.initSegment ++ atomData }, segs)
  else if (t = moovT ∨ t = freeT ∨ t = metaT ∨ t = skipT) ∧ p.initComplete = false then
    let dataToAdd := if t = moovT then patch_moov atomData else atomData
    let p := { p with initSegment := p.initSegment ++ dataToAdd }
    if t = moovT then
      -- (the missing-`mvex` check only logs a warning, mp4.rs:376-379)
      ({ p with initComplete := true, initSegment := [] },
       segs ++ [⟨SegKind.init, p.initSegment⟩])
    else (p, segs)
  else if t = moofT then
    if p.initComplete then
      let r := patch_moof p.cdt atomData
      ({ p with pendingMoof := r.1, cdt := r.2 }, segs)
    else (p, segs)
  else if t = mdatT then
    if p.initComplete then
      if p.pendingMoof ≠ [] then
        ({ p with pendingMoof := [] },
         segs ++ [⟨SegKind.media, p.pendingMoof ++ atomData⟩])
      else (p, segs ++ [⟨SegKind.media, atomData⟩])
    else (p, segs)
  else
    if p.initComplete then (p, segs ++ [⟨SegKind.media, atomData⟩])
    else (p, segs)

/-- The `loop` of `Mp4Parser::parse` (`mp4.rs:342-422`): split the buffer
into complete atoms and dispatch each.  Fuel: each iteration either
returns or strictly shrinks the buffer, so `buffer.length + 1` dominates
the iteration count. -/
def parseLoop : Nat → Mp4Parser → List Mp4Segment → Mp4Parser × List Mp4Segment
  | 0, p, segs => (p, segs)
  | fuel+1, p, segs =>
    if p.buffer.length < 8 then (p, segs)
    else
      let atomSize := be32at p.buffer 0
      if atomSize < 8 then
        -- recovery: skip one byte if the size is invalid
        parseLoop fuel { p with buffer := p.buffer.drop 1 } segs
      else if p.buffer.length < atomSize then (p, segs)
      else
        let atomData := p.buffer.take atomSize
        let p1 := { p with buffer := p.buffer.drop atomSize }
        let r := parseAtom p1 atomData segs
        parseLoop fuel r.1 r.2

/-- `Mp4Parser::parse` (`mp4.rs:338-424`). -/
def Mp4Parser.parse (p : Mp4Parser) (chunk : Bytes) : Mp4Parser × List Mp4Segment :=
  let p := { p with buffer := p.buffer ++ chunk }
  parseLoop (p.buffer.length + 1) p []

/-!  ## Virtual Byte Sink (`stream.rs`)

`StreamState` carries the staging buffer, the sink-writer cursor and the
flush watermark, plus the embedded `Mp4Parser`.  Two ghost
(observation-only) fields instrument the model: `recovered` is set when
`try_flush`'s defensive skip-one-byte path fires, and `releaseLog` records
`(start, size, bytes_flushed-after)` for every box released downstream.
Neither ghost field influences any computed byte or counter. -/

structure StreamState where
  buffer : Bytes
  position : Nat
  bytesFlushed : Nat
  parser : Mp4Parser
  emitted : List Mp4Segment
  recovered : Bool
  releaseLog : List (Nat × Nat × Nat)
deriving Repr, DecidableEq

def StreamState.new : StreamState :=
  { buffer := [], position := 0, bytesFlushed := 0, parser := Mp4Parser.new,
    emitted := [], recovered := false, releaseLog := [] }

/-- `WebSocketStream::try_flush` (`stream.rs:40-87`).  Fuel: each iteration
either returns or strictly shrinks the buffer. -/
def tryFlush : Nat → StreamState → StreamState
  | 0, s => s
  | fuel+1, s =>
    if s.buffer.length < 8 then s
    else
      let atomSize := be32at s.buffer 0
      if atomSize < 8 then
        tryFlush fuel { s with buffer := s.buffer.drop 1,
                               bytesFlushed := s.bytesFlushed + 1,
                               recovered := true }
      else if s.buffer.length < atomSize then s
      else if s.position < s.bytesFlushed + atomSize then s
      else
        let atomData := s.buffer.take atomSize
        let start := s.bytesFlushed
        let bf' := s.bytesFlushed + atomSize
        let r := s.parser.parse atomData
        tryFlush fuel
          { s with buffer := s.buffer.drop atomSize,
                   bytesFlushed := bf',
                   parser := r.1,
                   emitted := s.emitted ++ r.2,
                   releaseLog := s.releaseLog ++ [(start, atomSize, bf')] }

/-- Overwrite `buf[i .. i+data.length)` with `data`
(`copy_from_slice` after the resize guaranteed `i + data.length ≤ buf.length`). -/
def writeSlice (buf : Bytes) (i : Nat) (data : Bytes) : Bytes :=
  buf.take i ++ data ++ buf.drop (i + data.length)

/-- `WebSocketStream_Impl::Write` (`stream.rs:97-125`).  Returns the new
state and `true` for `S_OK`; a write below the watermark returns the state
unchanged and `false` (`E_FAIL`). -/
def doWrite (s : StreamState) (data : Bytes) : StreamState × Bool :=
  if s.position < s.bytesFlushed then (s, false)
  else
    let posIn := s.position - s.bytesFlushed
    let endPos := posIn + data.length
    let buf :=
      if endPos > s.buffer.length then
        s.buffer ++ List.replicate (endPos - s.buffer.length) 0
      else s.buffer
    let buf := writeSlice buf posIn data
    let s := { s with buffer := buf, position := s.position + data.length }
    (tryFlush (s.buffer.length + 1) s, true)

/-- Seek origins of `IStream::Seek` (`STREAM_SEEK` 0/1/2). -/
inductive SeekOrigin where
  | set
  | cur
  | end_
deriving Repr, DecidableEq

/-- `WebSocketStream_Impl::Seek` (`stream.rs:128-149`).  The `i64`/`u64`
casts of the source are modelled by reduction `% 2^64`; a target below the
watermark is clamped to the watermark. -/
def doSeek (s : StreamState) (origin : SeekOrigin) (delta : Int) : StreamState :=
  let target : Nat :=
    match origin with
    | SeekOrigin.set => (delta % (18446744073709551616 : Int)).toNat
    | SeekOrigin.cur => (((s.position : Int) + delta) % (18446744073709551616 : Int)).toNat
    | SeekOrigin.end_ =>
        (((s.bytesFlushed : Int) + (s.buffer.length : Int) + delta) %
          (18446744073709551616 : Int)).toNat
  if target < s.bytesFlushed then { s with position := s.bytesFlushed }
  else { s with position := target }

/-- One operation the sink writer can perform on the Virtual Byte Sink. -/
inductive StreamOp where
  | write (data : Bytes)
  | seek (origin : SeekOrigin) (delta : Int)
deriving Repr, DecidableEq

def applyOp (s : StreamState) (op : StreamOp) : StreamState :=
  match op with
  | StreamOp.write data => (doWrite s data).1
  | StreamOp.seek origin delta => doSeek s origin delta

/-- The state reached after the sink writer performs `ops` on a fresh sink. -/
def runOps (ops : List StreamOp) : StreamState :=
  ops.foldl applyOp StreamState.new

/-!  ## Encoder front-end (`encoder_patched.rs`)

Only the parts the claims are about are embedded: the error enumeration,
the sample-duration computation inside the transcode-thread frame loop,
and the timestamp handling plus channel hand-off of `send_frame`. -/

/-- `VideoEncoderError` (`encoder_patched.rs:40-58`) — note the absence of
any timestamp-related variant. -/
inductive VideoEncoderError where
  | windowsError
  | frameSendError
  | frameDropped
  | audioSendError
  | videoDisabled
  | audioDisabled
  | ioError
  | unsupportedFrameFormat
deriving Repr, DecidableEq

/-- `VideoSettingsBuilder` (`encoder_patched.rs:83-125`). -/
structure VideoSettingsBuilder where
  bitrate : Nat
  width : Nat
  height : Nat
  frameRate : Nat
  parNum : Nat
  parDen : Nat
  disabled : Bool
deriving Repr, DecidableEq

/-- The sample duration in 100-ns ticks set on every submitted video sample
by the transcode-thread frame loop: the source calls
`sample.SetSampleDuration(10_000_000 / 60)` (`encoder_patched.rs:416`),
with the configured frame rate nowhere in the computation. -/
def sampleDurationTicks (_settings : VideoSettingsBuilder) : Nat :=
  10000000 / 60

/-- Relative-timestamp computation at the head of `VideoEncoder::send_frame`
(`encoder_patched.rs:503-510`): on the first call record `t0` and use 0;
afterwards use `frame.timestamp - t0` with no sign or monotonicity check.
`i64` subtraction is modelled with an explicit wrap to `[-2^63, 2^63)`. -/
def i64wrap (x : Int) : Int :=
  (x + 2 ^ 63) % 2 ^ 64 - 2 ^ 63

def relativeTimestamp (first : Option Int) (ts : Int) : Option Int × Int :=
  match first with
  | some t0 => (some t0, i64wrap (ts - t0))
  | none => (some ts, 0)

/-- Outcome of the bounded-channel `try_send` in `send_frame`
(`encoder_patched.rs:542-561`). -/
inductive ChannelState where
  | ok
  | full
  | disconnected
deriving Repr, DecidableEq

/-- `VideoEncoder::send_frame` (`encoder_patched.rs:499-563`), reduced to
the control decisions the claims are about: the disabled check, the
relative-timestamp computation, and the channel hand-off.  On success the
returned `Option Int` is the relative timestamp the frame was submitted
with (the pixel copy is irrelevant to, and omitted from, the claims). -/
def send_frame (isVideoDisabled : Bool) (channel : ChannelState)
    (first : Option Int) (ts : Int) :
    Option Int × Except VideoEncoderError Int :=
  if isVideoDisabled then (first, Except.error VideoEncoderError.videoDisabled)
  else
    let r := relativeTimestamp first ts
    match channel with
    | ChannelState.ok => (r.1, Except.ok r.2)
    | ChannelState.full => (r.1, Except.error VideoEncoderError.frameDropped)
    | ChannelState.disconnected => (r.1, Except.error VideoEncoderError.videoDisabled)

/-!  ## Structured box families

`mkMoof` is a structurally well-formed `moof` of the layout produced by the
Windows sink writer and assumed by the spec's moof patch law: an `mfhd`,
then one `traf` holding a `tfhd` (with a `base_data_offset` field and the
base-data-offset-present flag bit set via `f2 % 2 = 1`), no `tfdt`, and a
`trun` with the data-offset-present flag bit set via `g2 % 2 = 1`.  The
flag bytes `f0 f1 f2`/`g0 g1 g2`, the 8 `base_data_offset` bytes
`b0..b7`, the `sample_count` bytes `s0..s3` and the old `data_offset`
bytes `o0..o3` are all arbitrary. -/
def mkMoof (f0 f1 f2 b0 b1 b2 b3 b4 b5 b6 b7 g0 g1 g2 s0 s1 s2 s3 o0 o1 o2 o3 : Nat) :
    Bytes :=
  [0, 0, 0, 76, 109, 111, 111, 102,                -- moof header
   0, 0, 0, 16, 109, 102, 104, 100, 0, 0, 0, 0, 0, 0, 0, 1,  -- mfhd
   0, 0, 0, 52, 116, 114, 97, 102,                 -- traf header
   0, 0, 0, 24, 116, 102, 104, 100, 0, f0, f1, f2, 0, 0, 0, 1,  -- tfhd
   b0, b1, b2, b3, b4, b5, b6, b7,                 -- base_data_offset
   0, 0, 0, 20, 116, 114, 117, 110, 0, g0, g1, g2, -- trun hdr + flags
   s0, s1, s2, s3, o0, o1, o2, o3]                 -- sample_count, data_offset

/-- The 24-bit tfhd flag word rewritten by the patch:
clear `0x000001`, set `0x020000`. -/
def newFlags24 (f0 f1 f2 : Nat) : Nat :=
  ((f0 * 65536 + f1 * 256 + f2) &&& 4294967294) ||| 131072

/-- `mkMoof` after the tfhd step: flag bytes rewritten, the 8
`base_data_offset` bytes removed, tfhd size 24 → 16. -/
def mkMoofS1 (f0 f1 f2 g0 g1 g2 s0 s1 s2 s3 o0 o1 o2 o3 : Nat) : Bytes :=
  [0, 0, 0, 76, 109, 111, 111, 102,
   0, 0, 0, 16, 109, 102, 104, 100, 0, 0, 0, 0, 0, 0, 0, 1,
   0, 0, 0, 52, 116, 114, 97, 102,
   0, 0, 0, 16, 116, 102, 104, 100,
   0, newFlags24 f0 f1 f2 >>> 16 &&& 255,
      newFlags24 f0 f1 f2 >>> 8 &&& 255,
      newFlags24 f0 f1 f2 &&& 255, 0, 0, 0, 1,
   0, 0, 0, 20, 116, 114, 117, 110, 0, g0, g1, g2,
   s0, s1, s2, s3, o0, o1, o2, o3]

/-- `mkMoofS1` after the size-reduction step: traf size 52 → 44,
moof size 76 → 68. -/
def mkMoofS2 (f0 f1 f2 g0 g1 g2 s0 s1 s2 s3 o0 o1 o2 o3 : Nat) : Bytes :=
  [0, 0, 0, 68, 109, 111, 111, 102,
   0, 0, 0, 16, 109, 102, 104, 100, 0, 0, 0, 0, 0, 0, 0, 1,
   0, 0, 0, 44, 116, 114, 97, 102,
   0, 0, 0, 16, 116, 102, 104, 100,
   0, newFlags24 f0 f1 f2 >>> 16 &&& 255,
      newFlags24 f0 f1 f2 >>> 8 &&& 255,
      newFlags24 f0 f1 f2 &&& 255, 0, 0, 0, 1,
   0, 0, 0, 20, 116, 114, 117, 110, 0, g0, g1, g2,
   s0, s1, s2, s3, o0, o1, o2, o3]

/-- `mkMoofS2` after the tfdt injection: a 16-byte version-0 `tfdt`
carrying `cdt as u32` right after the tfhd, traf 44 → 60, moof 68 → 84. -/
def mkMoofS3 (f0 f1 f2 g0 g1 g2 s0 s1 s2 s3 o0 o1 o2 o3 cdt : Nat) : Bytes :=
  [0, 0, 0, 84, 109, 111, 111, 102,
   0, 0, 0, 16, 109, 102, 104, 100, 0, 0, 0, 0, 0, 0, 0, 1,
   0, 0, 0, 60, 116, 114, 97, 102,
   0, 0, 0, 16, 116, 102, 104, 100,
   0, newFlags24 f0 f1 f2 >>> 16 &&& 255,
      newFlags24 f0 f1 f2 >>> 8 &&& 255,
      newFlags24 f0 f1 f2 &&& 255, 0, 0, 0, 1,
   0, 0, 0, 16, 116, 102, 100, 116, 0, 0, 0, 0,
   ((cdt % 4294967296) >>> 24) % 256, ((cdt % 4294967296) >>> 16) % 256,
   ((cdt % 4294967296) >>> 8) % 256, (cdt % 4294967296) % 256,
   0, 0, 0, 20, 116, 114, 117, 110, 0, g0, g1, g2,
   s0, s1, s2, s3, o0, o1, o2, o3]

/-- The fully patched `mkMoof`: additionally `trun.data_offset = 92 = 84 + 8`. -/
def mkMoofOut (f0 f1 f2 g0 g1 g2 s0 s1 s2 s3 cdt : Nat) : Bytes :=
  [0, 0, 0, 84, 109, 111, 111, 102,
   0, 0, 0, 16, 109, 102, 104, 100, 0, 0, 0, 0, 0, 0, 0, 1,
   0, 0, 0, 60, 116, 114, 97, 102,
   0, 0, 0, 16, 116, 102, 104, 100,
   0, newFlags24 f0 f1 f2 >>> 16 &&& 255,
      newFlags24 f0 f1 f2 >>> 8 &&& 255,
      newFlags24 f0 f1 f2 &&& 255, 0, 0, 0, 1,
   0, 0, 0, 16, 116, 102, 100, 116, 0, 0, 0, 0,
   ((cdt % 4294967296) >>> 24) % 256, ((cdt % 4294967296) >>> 16) % 256,
   ((cdt % 4294967296) >>> 8) % 256, (cdt % 4294967296) % 256,
   0, 0, 0, 20, 116, 114, 117, 110, 0, g0, g1, g2,
   s0, s1, s2, s3, 0, 0, 0, 92]

/-- Structured `moov` family for the moov patch round-trip: an `iods`
child, then a `trak` holding a version-0 `tkhd` with zeroed dimensions and
an `avc1` sample entry whose width/height bytes are `w0 w1 h0 h1`, then a
trailing `free` box. -/
def mkMoov (w0 w1 h0 h1 : Nat) : Bytes :=
  [0, 0, 0, 176, 109, 111, 111, 118, 0, 0, 0, 16, 105, 111, 100, 115,
   0, 0, 0, 0, 0, 0, 0, 0, 0, 0, 0, 144, 116, 114, 97, 107,
   0, 0, 0, 92, 116, 107, 104, 100, 0, 0, 0, 0, 0, 0, 0, 0,
   0, 0, 0, 0, 0, 0, 0, 0, 0, 0, 0, 0, 0, 0, 0, 0,
   0, 0, 0, 0, 0, 0, 0, 0, 0, 0, 0, 0, 0, 0, 0, 0,
   0, 0, 0, 0, 0, 0, 0, 0, 0, 0, 0, 0, 0, 0, 0, 0,
   0, 0, 0, 0, 0, 0, 0, 0, 0, 0, 0, 0, 0, 0, 0, 0,
   0, 0, 0, 0, 0, 0, 0, 0, 0, 0, 0, 0, 0, 0, 0, 44,
   97, 118, 99, 49, 0, 0, 0, 0, 0, 0, 0, 0, 0, 0, 0, 0,
   0, 0, 0, 0, 0, 0, 0, 0, 0, 0, 0, 0, w0, w1, h0, h1,
   0, 0, 0, 0, 0, 0, 0, 0, 0, 0, 0, 8, 102, 114, 101, 101]

/-- `mkMoov` with the `iods` child removed and the size rewritten — the
intermediate `result` of `patch_moov` before the tkhd patch. -/
def mkMoovNoIods (w0 w1 h0 h1 : Nat) : Bytes :=
  [0, 0, 0, 160, 109, 111, 111, 118, 0, 0, 0, 144, 116, 114, 97, 107,
   0, 0, 0, 92, 116, 107, 104, 100, 0, 0, 0, 0, 0, 0, 0, 0,
   0, 0, 0, 0, 0, 0, 0, 0, 0, 0, 0, 0, 0, 0, 0, 0,
   0, 0, 0, 0, 0, 0, 0, 0, 0, 0, 0, 0, 0, 0, 0, 0,
   0, 0, 0, 0, 0, 0, 0, 0, 0, 0, 0, 0, 0, 0, 0, 0,
   0, 0, 0, 0, 0, 0, 0, 0, 0, 0, 0, 0, 0, 0, 0, 0,
   0, 0, 0, 0, 0, 0, 0, 0, 0, 0, 0, 0, 0, 0, 0, 44,
   97, 118, 99, 49, 0, 0, 0, 0, 0, 0, 0, 0, 0, 0, 0, 0,
   0, 0, 0, 0, 0, 0, 0, 0, 0, 0, 0, 0, w0, w1, h0, h1,
   0, 0, 0, 0, 0, 0, 0, 0, 0, 0, 0, 8, 102, 114, 101, 101]

/-- The fully patched `mkMoov`: no `iods`, declared size 160 = length, and
the `tkhd` width/height fields (offsets 100/104, i.e. +80/+84 from the
`tkhd` type bytes at 20, version 0) hold the avc1 dimensions as 16.16
fixed-point. -/
def mkMoovOut (w0 w1 h0 h1 : Nat) : Bytes :=
  [0, 0, 0, 160, 109, 111, 111, 118, 0, 0, 0, 144, 116, 114, 97, 107,
   0, 0, 0, 92, 116, 107, 104, 100, 0, 0, 0, 0, 0, 0, 0, 0,
   0, 0, 0, 0, 0, 0, 0, 0, 0, 0, 0, 0, 0, 0, 0, 0,
   0, 0, 0, 0, 0, 0, 0, 0, 0, 0, 0, 0, 0, 0, 0, 0,
   0, 0, 0, 0, 0, 0, 0, 0, 0, 0, 0, 0, 0, 0, 0, 0,
   0, 0, 0, 0, 0, 0, 0, 0, 0, 0, 0, 0, 0, 0, 0, 0,
   0, 0, 0, 0,
   (w0 * 256 + w1) <<< 16 >>> 24 % 256, (w0 * 256 + w1) <<< 16 >>> 16 % 256,
   (w0 * 256 + w1) <<< 16 >>> 8 % 256, (w0 * 256 + w1) <<< 16 % 256,
   (h0 * 256 + h1) <<< 16 >>> 24 % 256, (h0 * 256 + h1) <<< 16 >>> 16 % 256,
   (h0 * 256 + h1) <<< 16 >>> 8 % 256, (h0 * 256 + h1) <<< 16 % 256,
   0, 0, 0, 44,
   97, 118, 99, 49, 0, 0, 0, 0, 0, 0, 0, 0, 0, 0, 0, 0,
   0, 0, 0, 0, 0, 0, 0, 0, 0, 0, 0, 0, w0, w1, h0, h1,
   0, 0, 0, 0, 0, 0, 0, 0, 0, 0, 0, 8, 102, 114, 101, 101]

/-- The direct child types of a box whose payload starts at offset 8 —
used to state that the patched `moov`'s child list omits `iods`.  Follows
the same size-guarded walk as `collectChildren`. -/
def childTypes (d : Bytes) : Nat → Nat → List Bytes
  | 0, _ => []
  | fuel+1, pos =>
    if pos + 8 > d.length then []
    else
      let cs := be32at d pos
      if cs < 8 ∨ pos + cs > d.length then []
      else (d.drop (pos+4)).take 4 :: childTypes d fuel (pos + cs)

/-!  ## Predicates and session runners used by the segment-stream claims -/

/-- A complete top-level box: at least 8 bytes and a declared size equal to
its byte length — exactly the shape of every atom `Mp4Parser::parse`
extracts from its buffer. -/
def IsBoxBytes (b : Bytes) : Prop := 8 ≤ b.length ∧ be32at b 0 = b.length

/-- A complete box whose type is `mdat`. -/
def IsMdatBox (b : Bytes) : Prop := IsBoxBytes b ∧ (b.drop 4).take 4 = mdatT

/-- Bytes produced by running `patch_moof` (at some decode time) on a
complete `moof`-typed box — the only way `pending_moof` is ever filled. -/
def IsPatchedMoof (p : Bytes) : Prop :=
  ∃ cdt b, IsBoxBytes b ∧ (b.drop 4).take 4 = moofT ∧ p = (patch_moof cdt b).1

/-- The shape of every `Media` segment: a single complete box on its own,
or a patched `moof` immediately followed by an `mdat` box. -/
def MediaOk (d : Bytes) : Prop :=
  IsBoxBytes d ∨ ∃ p m, d = p ++ m ∧ IsPatchedMoof p ∧ IsMdatBox m

/-- Feed a list of chunks to the rewriter in order, concatenating the
emitted segments — one full session. -/
def runSession (p : Mp4Parser) : List Bytes → Mp4Parser × List Mp4Segment
  | [] => (p, [])
  | b :: rest =>
    let r := p.parse b
    let r2 := runSession r.1 rest
    (r2.1, r.2 ++ r2.2)



/-- The two state invariants claim C6 is about, over the instrumented
sink state: the watermark inequality is guaranteed only while the
malformed-atom recovery path (`stream.rs:56-63`) has never run
(`recovered = false`), and every logged release `(start, size, bfAfter)`
satisfies `start + size ≤ bfAfter`, i.e. every released byte's absolute
offset lies below the watermark value set at the moment of the release. -/
def StreamInv (s : StreamState) : Prop :=
  (s.recovered = false → s.bytesFlushed ≤ s.position) ∧
  (∀ e ∈ s.releaseLog, e.1 + e.2.1 ≤ e.2.2)

/-- An operation sequence driving the sink into `bytesFlushed > position`:
a valid 8-byte box is written and released, then the writer seeks back to
offset 8 and overwrites the following box header with a declared size of
0, which triggers the recovery path once per remaining buffered byte. -/
def opsC6 : List StreamOp :=
  [StreamOp.write ([0, 0, 0, 8, 120, 120, 120, 120] ++ [0, 0, 0, 100] ++ List.replicate 12 0),
   StreamOp.seek SeekOrigin.set 8,
   StreamOp.write [0, 0, 0, 0]]

/-!  ## Evaluation of `patch_moof` on the structured family -/

theorem scanMoof_mkMoof (f0 f1 f2 b0 b1 b2 b3 b4 b5 b6 b7 g0 g1 g2 s0 s1 s2 s3 o0 o1 o2 o3 : Nat) :
    scanMoof (mkMoof f0 f1 f2 b0 b1 b2 b3 b4 b5 b6 b7 g0 g1 g2 s0 s1 s2 s3 o0 o1 o2 o3)
      76 76 8 ⟨none, none, none, none⟩ = ⟨some 32, none, some 56, some 24⟩ := by
  set M := mkMoof f0 f1 f2 b0 b1 b2 b3 b4 b5 b6 b7 g0 g1 g2 s0 s1 s2 s3 o0 o1 o2 o3 with hM
  have e8 : be32at M 8 = 16 := by norm_num [be32at, hM, mkMoof]
  have e24 : be32at M 24 = 52 := by norm_num [be32at, hM, mkMoof]
  have e32 : be32at M 32 = 24 := by norm_num [be32at, hM, mkMoof]
  have e56 : be32at M 56 = 20 := by norm_num [be32at, hM, mkMoof]
  have t8 : typeAt M 8 = mfhdT := by norm_num [typeAt, hM, mkMoof, mfhdT]
  have t24 : typeAt M 24 = trafT := by norm_num [typeAt, hM, mkMoof, trafT]
  have t32 : typeAt M 32 = tfhdT := by norm_num [typeAt, hM, mkMoof, tfhdT]
  have t56 : typeAt M 56 = trunT := by norm_num [typeAt, hM, mkMoof, trunT]
  rw [scanMoof.eq_2 M 76 8 ⟨none, none, none, none⟩ 75,
      if_pos (by norm_num : (8:Nat) + 8 ≤ 76), e8, t8,
      if_neg (by norm_num : ¬((16:Nat) < 8 ∨ 8 + 16 > 76))]
  simp only []
  rw [if_neg (by decide : ¬(mfhdT = trafT)),
      (by norm_num : (8:Nat) + 16 = 24)]
  rw [scanMoof.eq_2 M 76 24 ⟨none, none, none, none⟩ 74,
      if_pos (by norm_num : (24:Nat) + 8 ≤ 76), e24, t24,
      if_neg (by norm_num : ¬((52:Nat) < 8 ∨ 24 + 52 > 76))]
  simp only []
  rw [if_true,
      (by norm_num : (24:Nat) + 52 = 76),
      (by norm_num : (24:Nat) + 8 = 32)]
  rw [scanTraf.eq_2 M 76 32 ⟨none, none, none, some 24⟩ 75,
      if_pos (by norm_num : (32:Nat) + 8 ≤ 76), e32, t32,
      if_neg (by norm_num : ¬((24:Nat) < 8 ∨ 32 + 24 > 76))]
  simp only []
  rw [if_true,
      (by norm_num : (32:Nat) + 24 = 56)]
  rw [scanTraf.eq_2 M 76 56 ⟨some 32, none, none, some 24⟩ 74,
      if_pos (by norm_num : (56:Nat) + 8 ≤ 76), e56, t56,
      if_neg (by norm_num : ¬((20:Nat) < 8 ∨ 56 + 20 > 76))]
  simp only []
  rw [if_neg (by decide : ¬(trunT = tfhdT)),
      if_neg (by decide : ¬(trunT = tfdtT)), if_true,
      (by norm_num : (56:Nat) + 20 = 76)]
  rw [scanTraf.eq_2 M 76 76 ⟨some 32, none, some 56, some 24⟩ 73,
      if_neg (by norm_num : ¬((76:Nat) + 8 ≤ 76))]
  rw [scanMoof.eq_2 M 76 76 ⟨some 32, none, some 56, some 24⟩ 73,
      if_neg (by norm_num : ¬((76:Nat) + 8 ≤ 76))]

theorem tfhdStep_mkMoof (f0 f1 f2 b0 b1 b2 b3 b4 b5 b6 b7 g0 g1 g2 s0 s1 s2 s3 o0 o1 o2 o3 : Nat)
    (hf : f2 % 2 = 1) :
    tfhdStep (mkMoof f0 f1 f2 b0 b1 b2 b3 b4 b5 b6 b7 g0 g1 g2 s0 s1 s2 s3 o0 o1 o2 o3) (some 32)
      = (mkMoofS1 f0 f1 f2 g0 g1 g2 s0 s1 s2 s3 o0 o1 o2 o3, 8) := by
  set M := mkMoof f0 f1 f2 b0 b1 b2 b3 b4 b5 b6 b7 g0 g1 g2 s0 s1 s2 s3 o0 o1 o2 o3 with hM
  have hlen : M.length = 76 := by norm_num [hM, mkMoof]
  have e41 : be24at M 41 = f0 * 65536 + f1 * 256 + f2 := by norm_num [be24at, hM, mkMoof]
  have hfand : (f0 * 65536 + f1 * 256 + f2) &&& 1 ≠ 0 := by
    rw [Nat.and_one_is_mod]; omega
  simp only [tfhdStep]
  rw [(by norm_num : (32:Nat)+16 = 48), (by norm_num : (32:Nat)+9 = 41),
      (by norm_num : (32:Nat)+10 = 42), (by norm_num : (32:Nat)+11 = 43),
      (by norm_num : (32:Nat)+24 = 56)]
  rw [if_pos (show (48:Nat) ≤ M.length by rw [hlen]; norm_num)]
  rw [e41, if_pos hfand]
  simp only [List.length_set]
  rw [if_pos (show (56:Nat) ≤ M.length by rw [hlen]; norm_num)]
  norm_num [hM, mkMoof, mkMoofS1, newFlags24, drainRange, setBe32, u32sub, be32at,
    Nat.shiftRight_eq_div_pow]

theorem reductionStep_mkMoofS1 (f0 f1 f2 g0 g1 g2 s0 s1 s2 s3 o0 o1 o2 o3 : Nat) :
    reductionStep (mkMoofS1 f0 f1 f2 g0 g1 g2 s0 s1 s2 s3 o0 o1 o2 o3) 8 (some 24) (some 56)
      = (mkMoofS2 f0 f1 f2 g0 g1 g2 s0 s1 s2 s3 o0 o1 o2 o3, some 48) := by
  norm_num [reductionStep, mkMoofS1, mkMoofS2, setBe32, u32sub, be32at,
    Nat.shiftRight_eq_div_pow]

theorem tfdtStep_mkMoofS2 (f0 f1 f2 g0 g1 g2 s0 s1 s2 s3 o0 o1 o2 o3 cdt : Nat) :
    tfdtStep cdt (mkMoofS2 f0 f1 f2 g0 g1 g2 s0 s1 s2 s3 o0 o1 o2 o3) true
        (some 32) (some 24) (some 48)
      = (mkMoofS3 f0 f1 f2 g0 g1 g2 s0 s1 s2 s3 o0 o1 o2 o3 cdt, some 64) := by
  norm_num [tfdtStep, mkMoofS2, mkMoofS3, insertAt, setBe32, u32add, be32at, be32bytes,
    tfdtT, Nat.shiftRight_eq_div_pow]

theorem trunStep_mkMoofS3 (f0 f1 f2 g0 g1 g2 s0 s1 s2 s3 o0 o1 o2 o3 cdt : Nat)
    (hg : g2 % 2 = 1) :
    trunStep (mkMoofS3 f0 f1 f2 g0 g1 g2 s0 s1 s2 s3 o0 o1 o2 o3 cdt) (some 64)
      = mkMoofOut f0 f1 f2 g0 g1 g2 s0 s1 s2 s3 cdt := by
  set S := mkMoofS3 f0 f1 f2 g0 g1 g2 s0 s1 s2 s3 o0 o1 o2 o3 cdt with hS
  have hlen : S.length = 84 := by norm_num [hS, mkMoofS3]
  have e73 : be24at S 73 = g0 * 65536 + g1 * 256 + g2 := by norm_num [be24at, hS, mkMoofS3]
  have hgand : (g0 * 65536 + g1 * 256 + g2) &&& 1 ≠ 0 := by
    rw [Nat.and_one_is_mod]; omega
  simp only [trunStep]
  rw [(by norm_num : (64:Nat)+16 = 80), (by norm_num : (64:Nat)+9 = 73),
      (by norm_num : (64:Nat)+20 = 84)]
  rw [if_pos (show (80:Nat) ≤ S.length by rw [hlen]; norm_num)]
  rw [e73, if_pos hgand]
  rw [if_pos (show (84:Nat) ≤ S.length by rw [hlen])]
  norm_num [hS, mkMoofS3, mkMoofOut, setBe32, u32add, be32at, Nat.shiftRight_eq_div_pow]

theorem advanceStep_mkMoofOut (f0 f1 f2 g0 g1 g2 s0 s1 s2 s3 cdt : Nat) :
    advanceStep cdt (mkMoofOut f0 f1 f2 g0 g1 g2 s0 s1 s2 s3 cdt) (some 64)
      = (cdt + (s0 * 16777216 + s1 * 65536 + s2 * 256 + s3) * 1000) % 18446744073709551616 := by
  norm_num [advanceStep, mkMoofOut, be32at]

/-- Full evaluation of `patch_moof` on the structured `moof` family. -/
theorem patch_moof_mkMoof
    (f0 f1 f2 b0 b1 b2 b3 b4 b5 b6 b7 g0 g1 g2 s0 s1 s2 s3 o0 o1 o2 o3 cdt : Nat)
    (hf : f2 % 2 = 1) (hg : g2 % 2 = 1) :
    patch_moof cdt (mkMoof f0 f1 f2 b0 b1 b2 b3 b4 b5 b6 b7 g0 g1 g2 s0 s1 s2 s3 o0 o1 o2 o3) =
      (mkMoofOut f0 f1 f2 g0 g1 g2 s0 s1 s2 s3 cdt,
       (cdt + (s0 * 16777216 + s1 * 65536 + s2 * 256 + s3) * 1000) % 18446744073709551616) := by
  have hlen : (mkMoof f0 f1 f2 b0 b1 b2 b3 b4 b5 b6 b7 g0 g1 g2 s0 s1 s2 s3 o0 o1 o2 o3).length
      = 76 := by norm_num [mkMoof]
  have hsz : be32at (mkMoof f0 f1 f2 b0 b1 b2 b3 b4 b5 b6 b7 g0 g1 g2 s0 s1 s2 s3 o0 o1 o2 o3) 0
      = 76 := by norm_num [be32at, mkMoof]
  simp only [patch_moof]
  rw [hlen, hsz]
  rw [if_neg (by norm_num : ¬((76:Nat) < 8))]
  rw [if_neg (by norm_num : ¬((76:Nat) > 76))]
  rw [scanMoof_mkMoof]
  simp only [Option.isNone_none]
  rw [tfhdStep_mkMoof f0 f1 f2 b0 b1 b2 b3 b4 b5 b6 b7 g0 g1 g2 s0 s1 s2 s3 o0 o1 o2 o3 hf]
  simp only []
  rw [reductionStep_mkMoofS1]
  simp only []
  rw [tfdtStep_mkMoofS2]
  simp only []
  rw [trunStep_mkMoofS3 f0 f1 f2 g0 g1 g2 s0 s1 s2 s3 o0 o1 o2 o3 cdt hg]
  rw [advanceStep_mkMoofOut]

/-!  ## Evaluation of `patch_moov` on the structured family -/

theorem find_avc1_skip (d : Bytes) (n : Nat) : ∀ (i fuel : Nat),
    (∀ k, i ≤ k → k < i + n → (d.drop k).take 4 ≠ avc1T ∧ k < d.length - 40) →
    find_avc1_dimensions d (fuel + n) i = find_avc1_dimensions d fuel (i + n) := by
  induction n with
  | zero => intro i fuel _; rfl
  | succ n ih =>
    intro i fuel h
    have h0 := h i (le_refl i) (by omega)
    rw [show fuel + (n + 1) = (fuel + n) + 1 by omega]
    rw [find_avc1_dimensions.eq_2, if_pos h0.2, if_neg h0.1]
    rw [ih (i + 1) fuel (fun k hk1 hk2 => h k (by omega) (by omega))]
    congr 1
    omega

theorem patch_tkhd_skip (d : Bytes) (w h : Nat) (n : Nat) : ∀ (i fuel : Nat),
    (∀ k, i ≤ k → k < i + n → (d.drop k).take 4 ≠ tkhdT ∧ k < d.length - 92) →
    patch_tkhd d w h (fuel + n) i = patch_tkhd d w h fuel (i + n) := by
  induction n with
  | zero => intro i fuel _; rfl
  | succ n ih =>
    intro i fuel hc
    have h0 := hc i (le_refl i) (by omega)
    rw [show fuel + (n + 1) = (fuel + n) + 1 by omega]
    rw [patch_tkhd.eq_2, if_pos h0.2, if_neg h0.1]
    rw [ih (i + 1) fuel (fun k hk1 hk2 => hc k (by omega) (by omega))]
    congr 1
    omega

theorem mkMoovNoIods_take124 (w0 w1 h0 h1 : Nat) :
    (mkMoovNoIods w0 w1 h0 h1).take 124 = (mkMoovNoIods 0 0 0 0).take 124 := by
  norm_num [mkMoovNoIods]

theorem mkMoovNoIods_length (w0 w1 h0 h1 : Nat) :
    (mkMoovNoIods w0 w1 h0 h1).length = 160 := by
  norm_num [mkMoovNoIods]

/-- Windows that lie inside the first 124 bytes of `mkMoovNoIods` do not
depend on the symbolic dimension bytes (which sit at offsets 140-143). -/
theorem mkMoovNoIods_window (w0 w1 h0 h1 : Nat) (k : Nat) (hk : k + 4 ≤ 124) :
    ((mkMoovNoIods w0 w1 h0 h1).drop k).take 4
      = (((mkMoovNoIods 0 0 0 0).take 124).drop k).take 4 := by
  rw [← mkMoovNoIods_take124 w0 w1 h0 h1, List.drop_take, List.take_take]
  congr 1
  omega

theorem find_avc1_mkMoovNoIods (w0 w1 h0 h1 : Nat)
    (hw : 0 < w0 * 256 + w1) (hh : 0 < h0 * 256 + h1) :
    find_avc1_dimensions (mkMoovNoIods w0 w1 h0 h1) 160 0
      = some (w0 * 256 + w1, h0 * 256 + h1) := by
  have hdec : ∀ k, k < 112 →
      ¬((((mkMoovNoIods 0 0 0 0).take 124).drop k).take 4 = avc1T) := by decide
  have hlen := mkMoovNoIods_length w0 w1 h0 h1
  rw [show (160:Nat) = 48 + 112 by norm_num]
  rw [find_avc1_skip (mkMoovNoIods w0 w1 h0 h1) 112 0 48 (fun k hk1 hk2 => by
    constructor
    · rw [mkMoovNoIods_window w0 w1 h0 h1 k (by omega)]
      exact hdec k (by omega)
    · rw [hlen]; omega)]
  have e140 : be16at (mkMoovNoIods w0 w1 h0 h1) 140 = w0 * 256 + w1 := by
    norm_num [be16at, mkMoovNoIods]
  have e142 : be16at (mkMoovNoIods w0 w1 h0 h1) 142 = h0 * 256 + h1 := by
    norm_num [be16at, mkMoovNoIods]
  have t112 : ((mkMoovNoIods w0 w1 h0 h1).drop 112).take 4 = avc1T := by
    norm_num [mkMoovNoIods, avc1T]
  rw [show (0:Nat) + 112 = 112 by norm_num]
  rw [find_avc1_dimensions.eq_2 (mkMoovNoIods w0 w1 h0 h1) 112 47]
  rw [if_pos (show 112 < (mkMoovNoIods w0 w1 h0 h1).length - 40 by rw [hlen]; norm_num)]
  rw [t112, if_pos rfl]
  simp only []
  rw [(by norm_num : (112:Nat) + 30 = 142), (by norm_num : (112:Nat) + 28 = 140)]
  rw [if_pos (show (142:Nat) + 2 ≤ (mkMoovNoIods w0 w1 h0 h1).length by rw [hlen]; norm_num)]
  rw [e140, e142, if_pos ⟨hw, hh⟩]

theorem patch_tkhd_mkMoovNoIods (w0 w1 h0 h1 : Nat) :
    patch_tkhd (mkMoovNoIods w0 w1 h0 h1) (w0 * 256 + w1) (h0 * 256 + h1) 160 0
      = (mkMoovOut w0 w1 h0 h1, true) := by
  have hdec : ∀ k, k < 20 →
      ¬((((mkMoovNoIods 0 0 0 0).take 124).drop k).take 4 = tkhdT) := by decide
  have hlen := mkMoovNoIods_length w0 w1 h0 h1
  rw [show (160:Nat) = 140 + 20 by norm_num]
  rw [patch_tkhd_skip (mkMoovNoIods w0 w1 h0 h1) (w0 * 256 + w1) (h0 * 256 + h1) 20 0 140
    (fun k hk1 hk2 => by
      constructor
      · rw [mkMoovNoIods_window w0 w1 h0 h1 k (by omega)]
        exact hdec k (by omega)
      · rw [hlen]; omega)]
  have t20 : ((mkMoovNoIods w0 w1 h0 h1).drop 20).take 4 = tkhdT := by
    norm_num [mkMoovNoIods, tkhdT]
  have e24v : (mkMoovNoIods w0 w1 h0 h1).getD 24 0 = 0 := by
    norm_num [mkMoovNoIods]
  rw [show (0:Nat) + 20 = 20 by norm_num]
  rw [patch_tkhd.eq_2 (mkMoovNoIods w0 w1 h0 h1) (w0 * 256 + w1) (h0 * 256 + h1) 20 139]
  rw [if_pos (show 20 < (mkMoovNoIods w0 w1 h0 h1).length - 92 by rw [hlen]; norm_num)]
  rw [t20, if_pos rfl]
  rw [(by norm_num : (20:Nat) + 4 = 24), e24v]
  simp only [if_true]
  rw [(by norm_num : (20:Nat) + 80 = 100), (by norm_num : (20:Nat) + 84 = 104)]
  rw [if_pos (show (104:Nat) + 4 ≤ (mkMoovNoIods w0 w1 h0 h1).length by rw [hlen]; norm_num)]
  norm_num [mkMoovNoIods, mkMoovOut, setBe32, Nat.shiftRight_eq_div_pow]

theorem collectChildren_mkMoov (w0 w1 h0 h1 : Nat) :
    collectChildren (mkMoov w0 w1 h0 h1) 177 8 [] false
      = ((mkMoovNoIods w0 w1 h0 h1).drop 8, true) := by
  set M := mkMoov w0 w1 h0 h1 with hM
  have hlen : M.length = 176 := by norm_num [hM, mkMoov]
  have e8 : be32at M 8 = 16 := by norm_num [be32at, hM, mkMoov]
  have e24 : be32at M 24 = 144 := by norm_num [be32at, hM, mkMoov]
  have e168 : be32at M 168 = 8 := by norm_num [be32at, hM, mkMoov]
  have t8 : (M.drop 12).take 4 = iodsT := by norm_num [hM, mkMoov, iodsT]
  have t24 : (M.drop 28).take 4 = trakT := by norm_num [hM, mkMoov, trakT]
  have t168 : (M.drop 172).take 4 = freeT := by norm_num [hM, mkMoov, freeT]
  rw [collectChildren.eq_2 M 8 [] false 176,
      if_neg (show ¬(8 ≥ M.length) by rw [hlen]; norm_num),
      if_neg (show ¬(8 + 4 > M.length) by rw [hlen]; norm_num), e8,
      if_neg (show ¬((16:Nat) < 8 ∨ 8 + 16 > M.length) by rw [hlen]; norm_num),
      (by norm_num : (8:Nat) + 4 = 12), t8]
  simp only [if_true]
  rw [(by norm_num : (8:Nat) + 16 = 24)]
  rw [collectChildren.eq_2 M 24 [] true 175,
      if_neg (show ¬(24 ≥ M.length) by rw [hlen]; norm_num),
      if_neg (show ¬(24 + 4 > M.length) by rw [hlen]; norm_num), e24,
      if_neg (show ¬((144:Nat) < 8 ∨ 24 + 144 > M.length) by rw [hlen]; norm_num),
      (by norm_num : (24:Nat) + 4 = 28), t24,
      if_neg (by decide : ¬(trakT = iodsT)),
      (by norm_num : (24:Nat) + 144 = 168)]
  rw [collectChildren.eq_2 M 168 ([] ++ (M.drop 24).take 144) true 174]
  rw [if_neg (show ¬(168 ≥ M.length) by rw [hlen]; norm_num),
      if_neg (show ¬(168 + 4 > M.length) by rw [hlen]; norm_num), e168,
      if_neg (show ¬((8:Nat) < 8 ∨ 168 + 8 > M.length) by rw [hlen]; norm_num),
      (by norm_num : (168:Nat) + 4 = 172), t168,
      if_neg (by decide : ¬(freeT = iodsT)),
      (by norm_num : (168:Nat) + 8 = 176)]
  rw [collectChildren.eq_2 M 176 (([] ++ (M.drop 24).take 144) ++ (M.drop 168).take 8) true 173,
      if_pos (show 176 ≥ M.length by rw [hlen])]
  norm_num [hM, mkMoov, mkMoovNoIods]

/-- Full evaluation of `patch_moov` on the structured `moov` family. -/
theorem patch_moov_mkMoov (w0 w1 h0 h1 : Nat)
    (hw : 0 < w0 * 256 + w1) (hh : 0 < h0 * 256 + h1) :
    patch_moov (mkMoov w0 w1 h0 h1) = mkMoovOut w0 w1 h0 h1 := by
  have hlen : (mkMoov w0 w1 h0 h1).length = 176 := by norm_num [mkMoov]
  have hsz : be32at (mkMoov w0 w1 h0 h1) 0 = 176 := by norm_num [be32at, mkMoov]
  have hres : be32bytes ((8 + ((mkMoovNoIods w0 w1 h0 h1).drop 8).length) % 4294967296) ++ moovT
      ++ (mkMoovNoIods w0 w1 h0 h1).drop 8 = mkMoovNoIods w0 w1 h0 h1 := by
    norm_num [be32bytes, moovT, mkMoovNoIods, Nat.shiftRight_eq_div_pow]
  simp only [patch_moov]
  rw [hlen, hsz]
  rw [if_neg (by norm_num : ¬((176:Nat) < 8))]
  rw [if_neg (by norm_num : ¬((176:Nat) ≠ 176))]
  rw [show (176:Nat) + 1 = 177 from rfl]
  rw [collectChildren_mkMoov]
  simp only [if_true]
  rw [hres]
  simp only [moovFinish]
  rw [mkMoovNoIods_length]
  rw [find_avc1_mkMoovNoIods w0 w1 h0 h1 hw hh]
  simp only []
  rw [patch_tkhd_mkMoovNoIods]


/-!  ## Bit-manipulation helpers for the flag-word claims -/

theorem and_or_right (x y z : Nat) : (x ||| y) &&& z = (x &&& z) ||| (y &&& z) := by
  rw [Nat.and_comm, Nat.and_or_distrib_left, Nat.and_comm z x, Nat.and_comm z y]

theorem flags_reassemble (n : Nat) (h : n < 16777216) :
    (n >>> 16 &&& 255) * 65536 + (n >>> 8 &&& 255) * 256 + (n &&& 255) = n := by
  have h255 : (255:Nat) = 2 ^ 8 - 1 := by norm_num
  rw [h255, Nat.and_pow_two_sub_one_eq_mod, Nat.and_pow_two_sub_one_eq_mod,
      Nat.and_pow_two_sub_one_eq_mod, Nat.shiftRight_eq_div_pow, Nat.shiftRight_eq_div_pow]
  omega

theorem be32_reassemble (n : Nat) (h : n < 4294967296) :
    (n >>> 24) % 256 * 16777216 + (n >>> 16) % 256 * 65536
      + (n >>> 8) % 256 * 256 + n % 256 = n := by
  rw [Nat.shiftRight_eq_div_pow, Nat.shiftRight_eq_div_pow, Nat.shiftRight_eq_div_pow]
  omega

theorem newFlags24_lt (f0 f1 f2 : Nat) (h0 : f0 < 256) (h1 : f1 < 256) (h2 : f2 < 256) :
    newFlags24 f0 f1 f2 < 16777216 := by
  unfold newFlags24
  rw [show (16777216:Nat) = 2 ^ 24 by norm_num]
  apply Nat.or_lt_two_pow
  · exact lt_of_le_of_lt Nat.and_le_left (by omega)
  · norm_num

theorem newFlags24_and_one (f0 f1 f2 : Nat) : newFlags24 f0 f1 f2 &&& 1 = 0 := by
  unfold newFlags24
  rw [and_or_right, Nat.and_assoc]
  rw [(by decide : (4294967294:Nat) &&& 1 = 0)]
  rw [(by decide : (131072:Nat) &&& 1 = 0)]
  rw [Nat.and_zero, Nat.or_zero]

theorem newFlags24_and_dbim (f0 f1 f2 : Nat) :
    newFlags24 f0 f1 f2 &&& 131072 = 131072 := by
  unfold newFlags24
  rw [and_or_right, Nat.and_assoc]
  rw [(by decide : (4294967294:Nat) &&& 131072 = 131072)]
  rw [(by decide : (131072:Nat) &&& 131072 = 131072)]
  rw [show (131072:Nat) = 2 ^ 17 by norm_num, Nat.and_two_pow]
  cases h : (f0 * 65536 + f1 * 256 + f2).testBit 17 <;> simp [h]

/-!  ## Claim C1 -/

/-- C1: for every `moof` of the structured family whose `tfhd` has
base-data-offset-present set (`f2 % 2 = 1`) and which contains no `tfdt`,
the patched `moof` has base-data-offset-present cleared and
default-base-is-moof set, a 16-byte version-0 `tfdt` placed immediately
after the (size-16) `tfhd`, `trun.data_offset` equal to the patched
`moof`'s declared size plus 8, and a declared size equal to the original
size minus 8 plus 16. -/
theorem C1_moof_patch_law
    (f0 f1 f2 b0 b1 b2 b3 b4 b5 b6 b7 g0 g1 g2 s0 s1 s2 s3 o0 o1 o2 o3 cdt : Nat)
    (hf0 : f0 < 256) (hf1 : f1 < 256) (hf2 : f2 < 256)
    (hf : f2 % 2 = 1) (hg : g2 % 2 = 1) :
    be24at (patch_moof cdt (mkMoof f0 f1 f2 b0 b1 b2 b3 b4 b5 b6 b7 g0 g1 g2 s0 s1 s2 s3 o0 o1 o2 o3)).1 41 &&& 1 = 0 ∧
    be24at (patch_moof cdt (mkMoof f0 f1 f2 b0 b1 b2 b3 b4 b5 b6 b7 g0 g1 g2 s0 s1 s2 s3 o0 o1 o2 o3)).1 41 &&& 131072 = 131072 ∧
    typeAt (patch_moof cdt (mkMoof f0 f1 f2 b0 b1 b2 b3 b4 b5 b6 b7 g0 g1 g2 s0 s1 s2 s3 o0 o1 o2 o3)).1 32 = tfhdT ∧
    be32at (patch_moof cdt (mkMoof f0 f1 f2 b0 b1 b2 b3 b4 b5 b6 b7 g0 g1 g2 s0 s1 s2 s3 o0 o1 o2 o3)).1 32 = 16 ∧
    ((patch_moof cdt (mkMoof f0 f1 f2 b0 b1 b2 b3 b4 b5 b6 b7 g0 g1 g2 s0 s1 s2 s3 o0 o1 o2 o3)).1.drop 48).take 16
      = [0, 0, 0, 16] ++ tfdtT ++ [0, 0, 0, 0] ++ be32bytes (cdt % 4294967296) ∧
    be32at (patch_moof cdt (mkMoof f0 f1 f2 b0 b1 b2 b3 b4 b5 b6 b7 g0 g1 g2 s0 s1 s2 s3 o0 o1 o2 o3)).1 80
      = be32at (patch_moof cdt (mkMoof f0 f1 f2 b0 b1 b2 b3 b4 b5 b6 b7 g0 g1 g2 s0 s1 s2 s3 o0 o1 o2 o3)).1 0 + 8 ∧
    be32at (patch_moof cdt (mkMoof f0 f1 f2 b0 b1 b2 b3 b4 b5 b6 b7 g0 g1 g2 s0 s1 s2 s3 o0 o1 o2 o3)).1 0
      = be32at (mkMoof f0 f1 f2 b0 b1 b2 b3 b4 b5 b6 b7 g0 g1 g2 s0 s1 s2 s3 o0 o1 o2 o3) 0 - 8 + 16 := by
  rw [patch_moof_mkMoof f0 f1 f2 b0 b1 b2 b3 b4 b5 b6 b7 g0 g1 g2 s0 s1 s2 s3 o0 o1 o2 o3 cdt hf hg]
  have e41 : be24at (mkMoofOut f0 f1 f2 g0 g1 g2 s0 s1 s2 s3 cdt) 41 = newFlags24 f0 f1 f2 := by
    have h : be24at (mkMoofOut f0 f1 f2 g0 g1 g2 s0 s1 s2 s3 cdt) 41
        = (newFlags24 f0 f1 f2 >>> 16 &&& 255) * 65536
          + (newFlags24 f0 f1 f2 >>> 8 &&& 255) * 256 + (newFlags24 f0 f1 f2 &&& 255) := by
      norm_num [be24at, mkMoofOut]
    rw [h, flags_reassemble _ (newFlags24_lt f0 f1 f2 hf0 hf1 hf2)]
  refine ⟨?_, ?_, ?_, ?_, ?_, ?_, ?_⟩
  · rw [e41]; exact newFlags24_and_one f0 f1 f2
  · rw [e41]; exact newFlags24_and_dbim f0 f1 f2
  · norm_num [typeAt, mkMoofOut, tfhdT]
  · norm_num [be32at, mkMoofOut]
  · norm_num [mkMoofOut, tfdtT, be32bytes]
  · norm_num [be32at, mkMoofOut, mkMoof]
  · norm_num [be32at, mkMoofOut, mkMoof]

/-- C1 witness: the law applied to a concrete `moof` with tfhd flags
`0x000001`, trun flags `0x000001` and `sample_count = 60`. -/
theorem C1_moof_patch_law_witness :
    be24at (patch_moof 0 (mkMoof 0 0 1 1 2 3 4 5 6 7 8 0 0 1 0 0 0 60 9 9 9 9)).1 41 &&& 1 = 0 :=
  (C1_moof_patch_law 0 0 1 1 2 3 4 5 6 7 8 0 0 1 0 0 0 60 9 9 9 9 0
    (by decide) (by decide) (by decide) (by decide) (by decide)).1


/-!  ## Claim C5 -/

/-- Direct child types of the patched `moov` of the structured family. -/
theorem childTypes_mkMoovOut (w0 w1 h0 h1 : Nat) :
    childTypes (mkMoovOut w0 w1 h0 h1) 160 8 = [trakT, freeT] := by
  set D := mkMoovOut w0 w1 h0 h1 with hD
  have hlen : D.length = 160 := by norm_num [hD, mkMoovOut]
  have e8 : be32at D 8 = 144 := by norm_num [be32at, hD, mkMoovOut]
  have e152 : be32at D 152 = 8 := by norm_num [be32at, hD, mkMoovOut]
  have t8 : (D.drop 12).take 4 = trakT := by norm_num [hD, mkMoovOut, trakT]
  have t152 : (D.drop 156).take 4 = freeT := by norm_num [hD, mkMoovOut, freeT]
  rw [childTypes.eq_2 D 8 159,
      if_neg (show ¬(8 + 8 > D.length) by rw [hlen]; norm_num), e8,
      if_neg (show ¬((144:Nat) < 8 ∨ 8 + 144 > D.length) by rw [hlen]; norm_num),
      (by norm_num : (8:Nat) + 4 = 12), t8,
      (by norm_num : (8:Nat) + 144 = 152)]
  rw [childTypes.eq_2 D 152 158,
      if_neg (show ¬(152 + 8 > D.length) by rw [hlen]; norm_num), e152,
      if_neg (show ¬((8:Nat) < 8 ∨ 152 + 8 > D.length) by rw [hlen]; norm_num),
      (by norm_num : (152:Nat) + 4 = 156), t152,
      (by norm_num : (152:Nat) + 8 = 160)]
  rw [childTypes.eq_2 D 160 157,
      if_pos (show 160 + 8 > D.length by rw [hlen]; norm_num)]


/-- C5: the patched `moov` of the structured family (an `iods` child, a
version-0 `tkhd` with zeroed dimensions, an `avc1` entry with non-zero
width/height) omits `iods` from its child list, declares a size equal to
its byte length, and carries the avc1 width/height as 16.16 fixed-point in
the `tkhd` at the version-0 offsets (+80/+84 from the `tkhd` type bytes,
here absolute offsets 100/104). -/
theorem C5_moov_patch (w0 w1 h0 h1 : Nat)
    (hw0 : w0 < 256) (hw1 : w1 < 256) (hh0 : h0 < 256) (hh1 : h1 < 256)
    (hw : 0 < w0 * 256 + w1) (hh : 0 < h0 * 256 + h1) :
    childTypes (patch_moov (mkMoov w0 w1 h0 h1)) 160 8 = [trakT, freeT] ∧
    iodsT ∉ childTypes (patch_moov (mkMoov w0 w1 h0 h1)) 160 8 ∧
    be32at (patch_moov (mkMoov w0 w1 h0 h1)) 0 = (patch_moov (mkMoov w0 w1 h0 h1)).length ∧
    be32at (patch_moov (mkMoov w0 w1 h0 h1)) 100 = (w0 * 256 + w1) <<< 16 ∧
    be32at (patch_moov (mkMoov w0 w1 h0 h1)) 104 = (h0 * 256 + h1) <<< 16 := by
  rw [patch_moov_mkMoov w0 w1 h0 h1 hw hh]
  refine ⟨childTypes_mkMoovOut w0 w1 h0 h1, ?_, ?_, ?_, ?_⟩
  · rw [childTypes_mkMoovOut w0 w1 h0 h1]
    decide
  · norm_num [be32at, mkMoovOut]
  · have h : be32at (mkMoovOut w0 w1 h0 h1) 100
        = ((w0 * 256 + w1) <<< 16 >>> 24) % 256 * 16777216
          + ((w0 * 256 + w1) <<< 16 >>> 16) % 256 * 65536
          + ((w0 * 256 + w1) <<< 16 >>> 8) % 256 * 256 + (w0 * 256 + w1) <<< 16 % 256 := by
      norm_num [be32at, mkMoovOut]
    rw [h]
    apply be32_reassemble
    have : w0 * 256 + w1 < 65536 := by omega
    calc (w0 * 256 + w1) <<< 16 = (w0 * 256 + w1) * 65536 := by
          rw [Nat.shiftLeft_eq]
      _ < 4294967296 := by omega
  · have h : be32at (mkMoovOut w0 w1 h0 h1) 104
        = ((h0 * 256 + h1) <<< 16 >>> 24) % 256 * 16777216
          + ((h0 * 256 + h1) <<< 16 >>> 16) % 256 * 65536
          + ((h0 * 256 + h1) <<< 16 >>> 8) % 256 * 256 + (h0 * 256 + h1) <<< 16 % 256 := by
      norm_num [be32at, mkMoovOut]
    rw [h]
    apply be32_reassemble
    have : h0 * 256 + h1 < 65536 := by omega
    calc (h0 * 256 + h1) <<< 16 = (h0 * 256 + h1) * 65536 := by
          rw [Nat.shiftLeft_eq]
      _ < 4294967296 := by omega

/-- C5 witness: the round-trip at concrete 1920x1080 avc1 dimensions. -/
theorem C5_moov_patch_witness :
    childTypes (patch_moov (mkMoov 7 128 4 56)) 160 8 = [trakT, freeT] :=
  (C5_moov_patch 7 128 4 56 (by decide) (by decide) (by decide) (by decide)
    (by decide) (by decide)).1


/-!  ## Claims C8 and C9 -/

/-- C8: on the structured family, `patch_moof` advances
`cumulative_decode_time` by exactly `sample_count * 1000` (the `u32` at
trun offset +12, absolute offset 68 of the input), the counter is
non-decreasing, and the injected `tfdt` carries the decode time
accumulated before the advance.  The hypothesis `hno` bounds the `u64`
counter below `2^64`. -/
theorem C8_decode_time_advance
    (f0 f1 f2 b0 b1 b2 b3 b4 b5 b6 b7 g0 g1 g2 s0 s1 s2 s3 o0 o1 o2 o3 cdt : Nat)
    (hf : f2 % 2 = 1) (hg : g2 % 2 = 1)
    (hno : cdt + be32at (mkMoof f0 f1 f2 b0 b1 b2 b3 b4 b5 b6 b7 g0 g1 g2 s0 s1 s2 s3 o0 o1 o2 o3) 68 * 1000
            < 18446744073709551616) :
    (patch_moof cdt (mkMoof f0 f1 f2 b0 b1 b2 b3 b4 b5 b6 b7 g0 g1 g2 s0 s1 s2 s3 o0 o1 o2 o3)).2
      = cdt + be32at (mkMoof f0 f1 f2 b0 b1 b2 b3 b4 b5 b6 b7 g0 g1 g2 s0 s1 s2 s3 o0 o1 o2 o3) 68 * 1000 ∧
    cdt ≤ (patch_moof cdt (mkMoof f0 f1 f2 b0 b1 b2 b3 b4 b5 b6 b7 g0 g1 g2 s0 s1 s2 s3 o0 o1 o2 o3)).2 ∧
    ((patch_moof cdt (mkMoof f0 f1 f2 b0 b1 b2 b3 b4 b5 b6 b7 g0 g1 g2 s0 s1 s2 s3 o0 o1 o2 o3)).1.drop 60).take 4
      = be32bytes (cdt % 4294967296) := by
  have hsc : be32at (mkMoof f0 f1 f2 b0 b1 b2 b3 b4 b5 b6 b7 g0 g1 g2 s0 s1 s2 s3 o0 o1 o2 o3) 68
      = s0 * 16777216 + s1 * 65536 + s2 * 256 + s3 := by
    norm_num [be32at, mkMoof]
  rw [hsc] at hno ⊢
  rw [patch_moof_mkMoof f0 f1 f2 b0 b1 b2 b3 b4 b5 b6 b7 g0 g1 g2 s0 s1 s2 s3 o0 o1 o2 o3 cdt hf hg]
  refine ⟨?_, ?_, ?_⟩
  · exact Nat.mod_eq_of_lt hno
  · rw [Nat.mod_eq_of_lt hno]; omega
  · norm_num [mkMoofOut, be32bytes]

/-- C8 witness (scenario S6): a first `moof` with `sample_count = 60`
advances the counter from 0 to 60000, and the `tfdt` injected into the
next `moof` carries `baseMediaDecodeTime = 60000` (`[0, 0, 234, 96]`). -/
theorem C8_decode_time_advance_witness :
    (patch_moof 0 (mkMoof 0 0 1 1 2 3 4 5 6 7 8 0 0 1 0 0 0 60 9 9 9 9)).2 = 60000 ∧
    ((patch_moof 60000 (mkMoof 0 0 1 1 2 3 4 5 6 7 8 0 0 1 0 0 0 60 9 9 9 9)).1.drop 60).take 4
      = [0, 0, 234, 96] := by
  constructor
  · have h := (C8_decode_time_advance 0 0 1 1 2 3 4 5 6 7 8 0 0 1 0 0 0 60 9 9 9 9 0
      (by decide) (by decide) (by norm_num [be32at, mkMoof])).1
    rw [h]
    norm_num [be32at, mkMoof]
  · have h := (C8_decode_time_advance 0 0 1 1 2 3 4 5 6 7 8 0 0 1 0 0 0 60 9 9 9 9 60000
      (by decide) (by decide) (by norm_num [be32at, mkMoof])).2.2
    rw [h]
    norm_num [be32bytes, Nat.shiftRight_eq_div_pow]

/-- C9: the injected `tfdt` is a version-0 box (version byte 0 at offset
56) whose `baseMediaDecodeTime` field stores `cumulative_decode_time`
truncated to 32 bits: reading the field back as a big-endian `u32` yields
exactly `cdt % 2^32`, so the on-wire decode time wraps at `2^32`. -/
theorem C9_tfdt_truncation
    (f0 f1 f2 b0 b1 b2 b3 b4 b5 b6 b7 g0 g1 g2 s0 s1 s2 s3 o0 o1 o2 o3 cdt : Nat)
    (hf : f2 % 2 = 1) (hg : g2 % 2 = 1) :
    (patch_moof cdt (mkMoof f0 f1 f2 b0 b1 b2 b3 b4 b5 b6 b7 g0 g1 g2 s0 s1 s2 s3 o0 o1 o2 o3)).1.getD 56 0 = 0 ∧
    be32at (patch_moof cdt (mkMoof f0 f1 f2 b0 b1 b2 b3 b4 b5 b6 b7 g0 g1 g2 s0 s1 s2 s3 o0 o1 o2 o3)).1 60
      = cdt % 4294967296 := by
  rw [patch_moof_mkMoof f0 f1 f2 b0 b1 b2 b3 b4 b5 b6 b7 g0 g1 g2 s0 s1 s2 s3 o0 o1 o2 o3 cdt hf hg]
  constructor
  · norm_num [mkMoofOut]
  · have h : be32at (mkMoofOut f0 f1 f2 g0 g1 g2 s0 s1 s2 s3 cdt) 60
        = ((cdt % 4294967296) >>> 24) % 256 * 16777216
          + ((cdt % 4294967296) >>> 16) % 256 * 65536
          + ((cdt % 4294967296) >>> 8) % 256 * 256 + (cdt % 4294967296) % 256 := by
      norm_num [be32at, mkMoofOut]
    rw [h]
    exact be32_reassemble _ (Nat.mod_lt _ (by norm_num))

/-- C9 witness: at `cumulative_decode_time = 2^32 + 5` the stored field
wraps to 5. -/
theorem C9_tfdt_truncation_witness :
    be32at (patch_moof 4294967301 (mkMoof 0 0 1 1 2 3 4 5 6 7 8 0 0 1 0 0 0 60 9 9 9 9)).1 60 = 5 := by
  have h := (C9_tfdt_truncation 0 0 1 1 2 3 4 5 6 7 8 0 0 1 0 0 0 60 9 9 9 9 4294967301
    (by decide) (by decide)).2
  rw [h]


/-!  ## Claim C10 -/

/-- C10: the patch functions are total and act as the identity on
malformed input: input shorter than 8 bytes (both functions), a `moof`
whose declared size exceeds its length, and a `moov` whose declared size
differs from its length are all returned unchanged (and the decode-time
counter is untouched). -/
theorem C10_malformed_identity (data : Bytes) (cdt : Nat) :
    (data.length < 8 → (patch_moof cdt data).1 = data ∧ (patch_moof cdt data).2 = cdt
        ∧ patch_moov data = data) ∧
    (be32at data 0 > data.length → (patch_moof cdt data).1 = data ∧ (patch_moof cdt data).2 = cdt) ∧
    (be32at data 0 ≠ data.length → patch_moov data = data) := by
  refine ⟨?_, ?_, ?_⟩
  · intro h
    refine ⟨?_, ?_, ?_⟩ <;> simp [patch_moof, patch_moov, if_pos h]
  · intro h
    by_cases h8 : data.length < 8
    · simp [patch_moof, if_pos h8]
    · constructor <;> simp [patch_moof, if_neg h8, if_pos h]
  · intro h
    by_cases h8 : data.length < 8
    · simp [patch_moov, if_pos h8]
    · simp [patch_moov, if_neg h8, if_pos h]

/-- C10 witness: a 4-byte input, a `moof` declaring 99 bytes of 9, and a
`moov` declaring 99 bytes of 9 all come back unchanged. -/
theorem C10_malformed_identity_witness :
    (patch_moof 7 [0, 0, 0, 5]).1 = [0, 0, 0, 5] ∧
    (patch_moof 7 [0, 0, 0, 99, 109, 111, 111, 102, 0]).1 = [0, 0, 0, 99, 109, 111, 111, 102, 0] ∧
    patch_moov [0, 0, 0, 99, 109, 111, 111, 118, 0] = [0, 0, 0, 99, 109, 111, 111, 118, 0] :=
  ⟨((C10_malformed_identity [0, 0, 0, 5] 7).1 (by decide)).1,
   ((C10_malformed_identity [0, 0, 0, 99, 109, 111, 111, 102, 0] 7).2.1 (by decide)).1,
   (C10_malformed_identity [0, 0, 0, 99, 109, 111, 111, 118, 0] 7).2.2 (by decide)⟩

/-!  ## Claim C3 -/

/-- C3 counterexample: with a configured frame rate of 30 the sample
duration set by the frame loop is not `10_000_000 / frame_rate`
(the source hardcodes `10_000_000 / 60`). -/
theorem C3_sample_duration_counterexample :
    sampleDurationTicks ⟨8000000, 1920, 1080, 30, 1, 1, false⟩ ≠
      10000000 / (⟨8000000, 1920, 1080, 30, 1, 1, false⟩ : VideoSettingsBuilder).frameRate := by
  decide

/-- C3 (amended): the sample duration set on every submitted video sample
is the constant `10_000_000 / 60 = 166666` 100-ns ticks, whatever frame
rate is configured. -/
theorem C3_sample_duration_amended (s : VideoSettingsBuilder) :
    sampleDurationTicks s = 166666 := rfl

/-!  ## Claim C4 -/

/-- C4 counterexample: with `t0 = 10` recorded, a frame captured at
timestamp 5 is submitted successfully with relative timestamp `-5` —
no `Timestamp` error is raised (no such variant even exists in
`VideoEncoderError`). -/
theorem C4_timestamp_counterexample :
    send_frame false ChannelState.ok (some 10) 5 = (some 10, Except.ok (-5)) := by
  simp only [send_frame, relativeTimestamp, if_neg (Bool.false_ne_true), i64wrap]
  norm_num

/-- C4 (amended): `send_frame` performs no timestamp-monotonicity check —
a frame whose capture timestamp is below the recorded `t0` is submitted
with the (negative) relative timestamp `ts - t0` and result `Ok`.
The range hypothesis keeps the `i64` subtraction out of wrap territory. -/
theorem C4_no_timestamp_check (t0 ts : Int) (h : ts - t0 < 0) (hr : -(2 ^ 63) ≤ ts - t0) :
    send_frame false ChannelState.ok (some t0) ts = (some t0, Except.ok (ts - t0)) ∧
    ts - t0 < 0 := by
  refine ⟨?_, h⟩
  simp only [send_frame, relativeTimestamp, if_neg (Bool.false_ne_true), i64wrap]
  have heq : (ts - t0 + 2 ^ 63) % 2 ^ 64 - 2 ^ 63 = ts - t0 := by omega
  rw [heq]

/-- C4 witness: the amended statement at `t0 = 10`, `ts = 5`. -/
theorem C4_no_timestamp_check_witness :
    send_frame false ChannelState.ok (some 10) 5 = (some 10, Except.ok (-5)) ∧
    (5 - 10 : Int) < 0 := by
  have h := C4_no_timestamp_check 10 5 (by norm_num) (by norm_num)
  norm_num at h ⊢
  exact h


/-!  ## Parse-dispatch lemmas for the rewriter claims -/

theorem parseAtom_buffer (p : Mp4Parser) (b : Bytes) (segs : List Mp4Segment) :
    (parseAtom p b segs).1.buffer = p.buffer := by
  simp only [parseAtom]
  split_ifs <;> rfl

theorem parseLoop_done (fuel : Nat) (q : Mp4Parser) (segs : List Mp4Segment)
    (h : q.buffer.length < 8) : parseLoop fuel q segs = (q, segs) := by
  cases fuel with
  | zero => rfl
  | succ n => rw [parseLoop.eq_2, if_pos h]

/-- Feeding one complete box to a parser with an empty buffer performs
exactly one dispatch of the atom `match`. -/
theorem parse_box (ini pend : Bytes) (ic : Bool) (cdt : Nat) (b : Bytes)
    (hlen : 8 ≤ b.length) (hsz : be32at b 0 = b.length) :
    Mp4Parser.parse ⟨[], ic, ini, pend, cdt⟩ b
      = parseAtom ⟨[], ic, ini, pend, cdt⟩ b [] := by
  obtain ⟨m, hm⟩ : ∃ m, b.length = m + 8 := ⟨b.length - 8, by omega⟩
  simp only [Mp4Parser.parse, List.nil_append]
  rw [hm, parseLoop.eq_2]
  simp only []
  rw [if_neg (show ¬(b.length < 8) by omega)]
  rw [hsz]
  rw [if_neg (show ¬(b.length < 8) by omega)]
  rw [if_neg (lt_irrefl b.length)]
  rw [List.take_length, List.drop_length]
  rw [parseLoop_done (m + 8) _ _ (by rw [parseAtom_buffer]; simp)]

theorem parseAtom_pending (p : Mp4Parser) (b : Bytes) (segs : List Mp4Segment)
    (hib : IsBoxBytes b)
    (hp : p.pendingMoof = [] ∨ IsPatchedMoof p.pendingMoof) :
    (parseAtom p b segs).1.pendingMoof = [] ∨ IsPatchedMoof (parseAtom p b segs).1.pendingMoof := by
  simp only [parseAtom]
  split_ifs <;>
    first
      | exact hp
      | (left; rfl)
      | (right; exact ⟨p.cdt, b, hib, by assumption, rfl⟩)

theorem parseAtom_ic_mono (p : Mp4Parser) (b : Bytes) (segs : List Mp4Segment)
    (h : p.initComplete = true) :
    (parseAtom p b segs).1.initComplete = true := by
  simp only [parseAtom]
  split_ifs <;> first | rfl | exact h

theorem parseAtom_pend_empty (p : Mp4Parser) (b : Bytes) (segs : List Mp4Segment)
    (hpc : p.initComplete = false → p.pendingMoof = []) :
    (parseAtom p b segs).1.initComplete = false → (parseAtom p b segs).1.pendingMoof = [] := by
  simp only [parseAtom]
  split_ifs <;> intro hic <;> first | exact hpc hic | rfl | simp_all

/-- Before `init_complete`, a dispatch emits nothing (staying incomplete)
or exactly one `Init` segment (becoming complete). -/
theorem parseAtom_emit_preinit (p : Mp4Parser) (b : Bytes) (segs : List Mp4Segment)
    (hic : p.initComplete = false) :
    ((parseAtom p b segs).2 = segs ∧ (parseAtom p b segs).1.initComplete = false) ∨
    (∃ d, (parseAtom p b segs).2 = segs ++ [⟨SegKind.init, d⟩]
       ∧ (parseAtom p b segs).1.initComplete = true) := by
  simp only [parseAtom]
  split_ifs <;>
    first
      | (left; exact ⟨rfl, hic⟩)
      | (right; exact ⟨_, rfl, rfl⟩)
      | simp_all

/-- After `init_complete`, a dispatch emits nothing or exactly one `Media`
segment that is a lone box or a patched-`moof`‖`mdat` pair. -/
theorem parseAtom_emit_postinit (p : Mp4Parser) (b : Bytes) (segs : List Mp4Segment)
    (hib : IsBoxBytes b)
    (hp : p.pendingMoof = [] ∨ IsPatchedMoof p.pendingMoof)
    (hic : p.initComplete = true) :
    (parseAtom p b segs).2 = segs ∨
    (∃ d, (parseAtom p b segs).2 = segs ++ [⟨SegKind.media, d⟩] ∧ MediaOk d) := by
  simp only [parseAtom]
  split_ifs <;>
    first
      | (left; rfl)
      | (right; exact ⟨b, rfl, Or.inl hib⟩)
      | (right;
         refine ⟨p.pendingMoof ++ b, rfl, Or.inr ⟨p.pendingMoof, b, rfl, ?_, hib, by assumption⟩⟩;
         rcases hp with hpe | hpm
         · exact absurd hpe (by assumption)
         · exact hpm)
      | simp_all

/-- Invariant of a whole session fed box-aligned chunks: the buffer stays
empty, `pending_moof` is empty or a patched `moof`, every emitted `Media`
segment is well-shaped, and before `init_complete` either nothing has been
emitted or the emission stream starts with an `Init`. -/
theorem runSession_invariant (boxes : List Bytes) : ∀ (p : Mp4Parser),
    (∀ b ∈ boxes, IsBoxBytes b) →
    p.buffer = [] →
    (p.pendingMoof = [] ∨ IsPatchedMoof p.pendingMoof) →
    (p.initComplete = false → p.pendingMoof = []) →
    (runSession p boxes).1.buffer = [] ∧
    ((runSession p boxes).1.pendingMoof = [] ∨ IsPatchedMoof (runSession p boxes).1.pendingMoof) ∧
    ((runSession p boxes).1.initComplete = false → (runSession p boxes).1.pendingMoof = []) ∧
    (∀ s ∈ (runSession p boxes).2, s.kind = SegKind.media → MediaOk s.data) ∧
    (p.initComplete = false →
      ((runSession p boxes).2 = [] ∧ (runSession p boxes).1.initComplete = false) ∨
      (∃ d rest2, (runSession p boxes).2 = ⟨SegKind.init, d⟩ :: rest2)) := by
  induction boxes with
  | nil =>
    intro p hb hbuf hp hpc
    exact ⟨hbuf, hp, hpc, by simp [runSession], fun h => Or.inl ⟨rfl, h⟩⟩
  | cons b rest ih =>
    intro p hb hbuf hp hpc
    obtain ⟨buf, ic, ini, pend, cdt⟩ := p
    subst hbuf
    have hibb : IsBoxBytes b := hb b (by simp)
    have hparse : Mp4Parser.parse ⟨[], ic, ini, pend, cdt⟩ b
        = parseAtom ⟨[], ic, ini, pend, cdt⟩ b [] :=
      parse_box ini pend ic cdt b hibb.1 hibb.2
    simp only [runSession, hparse]
    have hqbuf : (parseAtom ⟨[], ic, ini, pend, cdt⟩ b []).1.buffer = [] := by
      rw [parseAtom_buffer]
    have hqp := parseAtom_pending ⟨[], ic, ini, pend, cdt⟩ b [] hibb hp
    have hqpc := parseAtom_pend_empty ⟨[], ic, ini, pend, cdt⟩ b [] hpc
    have IH := ih (parseAtom ⟨[], ic, ini, pend, cdt⟩ b []).1
      (fun x hx => hb x (by simp [hx])) hqbuf hqp hqpc
    refine ⟨IH.1, IH.2.1, IH.2.2.1, ?_, ?_⟩
    · intro s hs hk
      rcases List.mem_append.mp hs with hs1 | hs2
      · cases ic with
        | false =>
          rcases parseAtom_emit_preinit ⟨[], false, ini, pend, cdt⟩ b [] rfl with
            ⟨he, _⟩ | ⟨d, he, _⟩
          · rw [he] at hs1; cases hs1
          · rw [he] at hs1
            simp only [List.nil_append, List.mem_singleton] at hs1
            rw [hs1] at hk
            cases hk
        | true =>
          rcases parseAtom_emit_postinit ⟨[], true, ini, pend, cdt⟩ b [] hibb hp rfl with
            he | ⟨d, he, hok⟩
          · rw [he] at hs1; cases hs1
          · rw [he] at hs1
            simp only [List.nil_append, List.mem_singleton] at hs1
            rw [hs1]
            exact hok
      · exact IH.2.2.2.1 s hs2 hk
    · intro hicf
      subst hicf
      rcases parseAtom_emit_preinit ⟨[], false, ini, pend, cdt⟩ b [] rfl with
        ⟨he, hic2⟩ | ⟨d, he, _⟩
      · rw [he, List.nil_append]
        rcases IH.2.2.2.2 hic2 with ⟨he2, hic3⟩ | ⟨d, rest2, he2⟩
        · exact Or.inl ⟨he2, hic3⟩
        · exact Or.inr ⟨d, rest2, he2⟩
      · rw [he]
        exact Or.inr ⟨d, _, rfl⟩

/-!  ## Claim C7 -/

/-- C7: for every box-aligned session, every emitted `Media` segment is a
lone complete box or a patched `moof` immediately followed by its `mdat`,
and the first emitted segment — when any exists — is an `Init` segment
(hence no `Media` precedes it). -/
theorem C7_segment_stream (boxes : List Bytes) (hb : ∀ b ∈ boxes, IsBoxBytes b) :
    (∀ s ∈ (runSession Mp4Parser.new boxes).2, s.kind = SegKind.media → MediaOk s.data) ∧
    (∀ s, ((runSession Mp4Parser.new boxes).2).head? = some s → s.kind = SegKind.init) := by
  have H := runSession_invariant boxes Mp4Parser.new hb rfl (Or.inl rfl) (fun _ => rfl)
  refine ⟨H.2.2.2.1, ?_⟩
  intro s hs
  rcases H.2.2.2.2 rfl with ⟨he, _⟩ | ⟨d, rest2, he⟩
  · rw [he] at hs; cases hs
  · rw [he] at hs
    simp only [List.head?_cons, Option.some.injEq] at hs
    rw [← hs]

/-- C7 witness: an `ftyp` + `moov` + `mdat` session; the first emitted
segment is the `Init`, and the lone-`mdat` `Media` segment satisfies
`MediaOk`. -/
theorem C7_segment_stream_witness :
    MediaOk [0, 0, 0, 8, 109, 100, 97, 116] ∧
    (Mp4Segment.mk SegKind.init
        [0, 0, 0, 8, 102, 116, 121, 112, 0, 0, 0, 8, 109, 111, 111, 118]).kind
      = SegKind.init :=
  ⟨(C7_segment_stream
      [[0, 0, 0, 8, 102, 116, 121, 112], [0, 0, 0, 8, 109, 111, 111, 118],
       [0, 0, 0, 8, 109, 100, 97, 116]]
      (by norm_num [IsBoxBytes, be32at])).1
      ⟨SegKind.media, [0, 0, 0, 8, 109, 100, 97, 116]⟩ (by decide) rfl,
   (C7_segment_stream
      [[0, 0, 0, 8, 102, 116, 121, 112], [0, 0, 0, 8, 109, 111, 111, 118],
       [0, 0, 0, 8, 109, 100, 97, 116]]
      (by norm_num [IsBoxBytes, be32at])).2
      ⟨SegKind.init, [0, 0, 0, 8, 102, 116, 121, 112, 0, 0, 0, 8, 109, 111, 111, 118]⟩
      (by decide)⟩

/-!  ## Claim C2 -/

/-- C2 counterexample: after an `ftyp`+`moov` init, feeding a second
`moov` does not discard it — the parser emits a `Media` segment whose
bytes are exactly that `moov` (the guarded `match` arm falls through to
the unknown-box case). -/
theorem C2_moov_after_init_counterexample :
    ((Mp4Parser.new.parse
        [0, 0, 0, 8, 102, 116, 121, 112, 0, 0, 0, 8, 109, 111, 111, 118]).1.parse
        [0, 0, 0, 8, 109, 111, 111, 118]).2
      = [⟨SegKind.media, [0, 0, 0, 8, 109, 111, 111, 118]⟩] := by
  decide

/-- C2 (amended): a `moov` box delivered with `init_complete = true` is
not appended to the init segment; it is emitted verbatim as a `Media`
segment through the unknown-box arm. -/
theorem C2_moov_after_init (ini pend : Bytes) (cdt : Nat) (b : Bytes)
    (hlen : 8 ≤ b.length) (hsz : be32at b 0 = b.length) (ht : (b.drop 4).take 4 = moovT) :
    (Mp4Parser.parse ⟨[], true, ini, pend, cdt⟩ b).2 = [⟨SegKind.media, b⟩] ∧
    (Mp4Parser.parse ⟨[], true, ini, pend, cdt⟩ b).1.initSegment = ini := by
  rw [parse_box ini pend true cdt b hlen hsz]
  simp only [parseAtom, ht]
  norm_num [moovT, ftypT, freeT, metaT, skipT, moofT, mdatT]

/-- C2 witness: the amended statement at a concrete 8-byte `moov`. -/
theorem C2_moov_after_init_witness :
    (Mp4Parser.parse ⟨[], true, [1], [], 0⟩ [0, 0, 0, 8, 109, 111, 111, 118]).2
      = [⟨SegKind.media, [0, 0, 0, 8, 109, 111, 111, 118]⟩] :=
  (C2_moov_after_init [1] [] 0 [0, 0, 0, 8, 109, 111, 111, 118]
    (by decide) (by decide) (by decide)).1


theorem tryFlush_inv (fuel : Nat) : ∀ (s : StreamState),
    (s.recovered = false → s.bytesFlushed ≤ s.position) →
    (∀ e ∈ s.releaseLog, e.1 + e.2.1 ≤ e.2.2) →
    (tryFlush fuel s).position = s.position ∧
    ((tryFlush fuel s).recovered = false →
      (tryFlush fuel s).bytesFlushed ≤ (tryFlush fuel s).position) ∧
    (∀ e ∈ (tryFlush fuel s).releaseLog, e.1 + e.2.1 ≤ e.2.2) := by
  induction fuel with
  | zero => intro s h1 h2; exact ⟨rfl, h1, h2⟩
  | succ n ih =>
    intro s h1 h2
    by_cases hb : s.buffer.length < 8
    · rw [tryFlush.eq_2, if_pos hb]; exact ⟨rfl, h1, h2⟩
    · by_cases hsz : be32at s.buffer 0 < 8
      · rw [tryFlush.eq_2, if_neg hb]
        simp only []
        rw [if_pos hsz]
        have IH := ih { s with buffer := s.buffer.drop 1,
                               bytesFlushed := s.bytesFlushed + 1,
                               recovered := true }
          (fun hrec => by simp at hrec) h2
        exact ⟨IH.1, IH.2.1, IH.2.2⟩
      · by_cases hlen : s.buffer.length < be32at s.buffer 0
        · rw [tryFlush.eq_2, if_neg hb]
          simp only []
          rw [if_neg hsz, if_pos hlen]
          exact ⟨rfl, h1, h2⟩
        · by_cases hpos : s.position < s.bytesFlushed + be32at s.buffer 0
          · rw [tryFlush.eq_2, if_neg hb]
            simp only []
            rw [if_neg hsz, if_neg hlen, if_pos hpos]
            exact ⟨rfl, h1, h2⟩
          · rw [tryFlush.eq_2, if_neg hb]
            simp only []
            rw [if_neg hsz, if_neg hlen, if_neg hpos]
            have hle : s.bytesFlushed + be32at s.buffer 0 ≤ s.position := by omega
            have IH := ih
              { s with buffer := s.buffer.drop (be32at s.buffer 0),
                       bytesFlushed := s.bytesFlushed + be32at s.buffer 0,
                       parser := (s.parser.parse (s.buffer.take (be32at s.buffer 0))).1,
                       emitted := s.emitted ++ (s.parser.parse (s.buffer.take (be32at s.buffer 0))).2,
                       releaseLog := s.releaseLog ++
                         [(s.bytesFlushed, be32at s.buffer 0,
                           s.bytesFlushed + be32at s.buffer 0)] }
              (fun _ => hle)
              (by
                intro e he
                rcases List.mem_append.mp he with he1 | he2
                · exact h2 e he1
                · simp only [List.mem_singleton] at he2
                  rw [he2])
            exact ⟨IH.1, IH.2.1, IH.2.2⟩

theorem tryFlush_inv_all (fuel : Nat) (s : StreamState)
    (h1 : s.bytesFlushed ≤ s.position)
    (h2 : ∀ e ∈ s.releaseLog, e.1 + e.2.1 ≤ e.2.2) :
    StreamInv (tryFlush fuel s) :=
  ⟨(tryFlush_inv fuel s (fun _ => h1) h2).2.1,
   (tryFlush_inv fuel s (fun _ => h1) h2).2.2⟩

theorem doWrite_inv (s : StreamState) (data : Bytes) (h : StreamInv s) :
    StreamInv (doWrite s data).1 := by
  by_cases hp : s.position < s.bytesFlushed
  · simp only [doWrite]; rw [if_pos hp]; exact h
  · have hle : s.bytesFlushed ≤ s.position := Nat.le_of_not_lt hp
    simp only [doWrite]; rw [if_neg hp]
    simp only []
    refine tryFlush_inv_all _ _ ?_ ?_
    · show s.bytesFlushed ≤ s.position + data.length
      omega
    · show ∀ e ∈ s.releaseLog, e.1 + e.2.1 ≤ e.2.2
      exact h.2

theorem doSeek_inv (s : StreamState) (o : SeekOrigin) (d : Int)
    (h2 : ∀ e ∈ s.releaseLog, e.1 + e.2.1 ≤ e.2.2) :
    StreamInv (doSeek s o d) := by
  unfold doSeek
  simp only []
  split_ifs with ht
  · exact ⟨fun _ => Nat.le_refl _, h2⟩
  · exact ⟨fun _ => Nat.le_of_not_lt ht, h2⟩

theorem applyOp_inv (s : StreamState) (op : StreamOp) (h : StreamInv s) :
    StreamInv (applyOp s op) := by
  cases op with
  | write data => exact doWrite_inv s data h
  | seek origin delta => exact doSeek_inv s origin delta h.2

theorem runOps_inv_aux (ops : List StreamOp) :
    ∀ s : StreamState, StreamInv s → StreamInv (ops.foldl applyOp s) := by
  induction ops with
  | nil => intro s h; exact h
  | cons op rest ih => intro s h; exact ih (applyOp s op) (applyOp_inv s op h)

theorem runOps_inv (ops : List StreamOp) : StreamInv (runOps ops) :=
  runOps_inv_aux ops StreamState.new
    ⟨fun _ => Nat.le_refl 0, fun e he => absurd he (List.not_mem_nil e)⟩

/-- C6 counterexample: after the operation sequence `opsC6` the sink is in
a reachable state with `position = 12 < 17 = bytesFlushed`, refuting the
spec's unconditional watermark inequality `bytes_flushed ≤ position`; the
instrumentation flag records that the malformed-atom recovery path of
`try_flush` ran. -/
theorem C6_watermark_counterexample :
    (runOps opsC6).position < (runOps opsC6).bytesFlushed ∧
    (runOps opsC6).recovered = true := by decide

/-- C6 (corrected): watermark invariant of the Virtual Byte Sink.  The
spec's unconditional `bytes_flushed ≤ position` is false — the
malformed-atom recovery path of `try_flush` (`stream.rs:56-63`) advances
`bytes_flushed` without any check against `position` (see the
counterexample).  Amended claim, for every reachable state (any operation
sequence from a fresh sink): (1) as long as the recovery path has never
run, `bytes_flushed ≤ position`; (2) every release logged as
`(start, size, bfAfter)` satisfies `start + size ≤ bfAfter`, so every
released byte's absolute offset is below the watermark at the moment of
release; (3) a Write attempted while `position < bytes_flushed` returns
`E_FAIL` and leaves the state unchanged. -/
theorem C6_watermark (ops : List StreamOp) :
    ((runOps ops).recovered = false →
      (runOps ops).bytesFlushed ≤ (runOps ops).position) ∧
    (∀ e ∈ (runOps ops).releaseLog, e.1 + e.2.1 ≤ e.2.2) ∧
    (∀ data : Bytes, (runOps ops).position < (runOps ops).bytesFlushed →
      doWrite (runOps ops) data = ((runOps ops), false)) := by
  refine ⟨(runOps_inv ops).1, (runOps_inv ops).2, ?_⟩
  intro data hlt
  simp only [doWrite]
  rw [if_pos hlt]

theorem C6_watermark_witness :
    (runOps [StreamOp.write [0, 0, 0, 8, 1, 2, 3, 4]]).bytesFlushed ≤
      (runOps [StreamOp.write [0, 0, 0, 8, 1, 2, 3, 4]]).position ∧
    (0 + 8 ≤ 8) ∧
    doWrite (runOps opsC6) [9] = (runOps opsC6, false) :=
  ⟨(C6_watermark [StreamOp.write [0, 0, 0, 8, 1, 2, 3, 4]]).1 (by decide),
   (C6_watermark [StreamOp.write [0, 0, 0, 8, 1, 2, 3, 4]]).2.1 (0, 8, 8) (by decide),
   (C6_watermark opsC6).2.2 [9] (by decide)⟩

end Sidecar
